import Mathlib

set_option autoImplicit false

/-!
# Verification of the smart-commit diff-analysis and prompt-building core

This development gives a shallow embedding, in Lean 4, of the pure string
processing core of the `smart-commit` tool: the diff validators and analyzers
in `smart_commit/utils.py`, the commit-split analyzer in
`smart_commit/analyzers/commit_splitter.py`, and the prompt builder in
`smart_commit/templates.py`.  Python strings are modelled by `String`
(operated on through `List Char` where recursion is needed), Python lists by
`List`, dictionaries that are used in insertion order by association lists,
and the filesystem accessed by the prompt builder by an explicit record of
functions passed as an argument.  Machine integers do not occur (Python
integers are unbounded), so counters are `Nat`.

Regular-expression searches performed with Python `re` are embedded as
hand-compiled deterministic matchers: every pattern used by
`detect_breaking_changes` is anchored (`^`) and built from literals,
character classes and maximal-munch repetitions whose boundaries are
disjoint, so a direct functional translation is exact on such patterns.
The pattern set of `detect_sensitive_data` is kept abstract (the embedding
is parameterised by the match enumerator), because the claims about that
function concern only the masking applied to each match, uniformly in
whatever the regular expression matched.
-/

/-! ## Basic string utilities (List Char level) -/

/-! ## `smart_commit/utils.py`: `remove_backticks`

`remove_backticks` is `re.sub(r"```\w*\n(.*)\n```", r"\1", text, flags=re.DOTALL)`.
With `DOTALL` the greedy `(.*)` extends to the last occurrence of `"\n```"`
in the input, so at most one replacement ever happens: the text after the
replaced span contains no further `"\n```"` and hence no further match.
The functions below implement exactly that leftmost-then-greedy search. -/

/-! ## Python slicing / stripping helpers -/

/-! ## `smart_commit/utils.py`: `validate_diff_size` and `count_diff_stats` -/

/-! ## `smart_commit/utils.py`: `detect_sensitive_data`

The fourteen `SENSITIVE_PATTERNS` regular expressions are not themselves
relevant to the claims about this function, which constrain the masking of
every match uniformly; the embedding is therefore parameterised by the match
enumerator `find` standing for `re.finditer` of the named pattern on a line
(in match order), and the theorems hold for every enumerator. -/

/-! ## `smart_commit/utils.py`: `detect_scope_from_diff`

The `scope_counts` dictionary is modelled by an insertion-ordered
association list; `add_scope` bumps an existing key in place or appends a
new one, exactly like a Python dict. -/

/-! ## `smart_commit/utils.py`: `detect_breaking_changes`

Every pattern of `breaking_patterns` is anchored at the start of the line
(`^`).  Each is compiled by hand into a deterministic matcher: all their
repetitions (`\s*`, `\s+`, `\w+`, `[^)]*`, `[^"]+`, `[^\'"]+`, `\d+`) are
followed by a character their class cannot contain, so maximal munch is
exact, and within each alternation group no alternative is a prefix of
another, so the first prefix-matching alternative is the only candidate. -/

/-! ## `smart_commit/utils.py`: `analyze_diff_impact` -/

/-! ## `smart_commit/analyzers/commit_splitter.py` -/

/-! ## `smart_commit/templates.py`: configuration and context records -/

/-! ## Privacy-mode anonymization (modelled from the spec)

The `privacy_mode` parameter of `build_prompt` and its path anonymization
are referenced by the CLI (`cli.py` passes `privacy_mode=privacy`) and by
the test suite, but are absent from the `templates.py` under verification;
the transform below is therefore modelled from the specification sentences:
file paths appearing in diff headers are replaced by sequential anonymized
labels `file1`, `file2`, ... consistently within one prompt build, all other
diff content is preserved verbatim, and context-file embedding is
suppressed. -/

/-! ## Claim theorems -/

/-! ## C2: line accounting of the splitter parser -/

/-- `p` occurs at the head of `l`. -/
def startsWithL : List Char → List Char → Bool
  | [], _ => true
  | _ :: _, [] => false
  | p :: ps, c :: cs => p == c && startsWithL ps cs

/-- `p` occurs somewhere inside `l` (substring test, Python `in`). -/
def containsL (p : List Char) : List Char → Bool
  | [] => startsWithL p []
  | c :: cs => startsWithL p (c :: cs) || containsL p cs

/-- Substring test on `String`s: Python `needle in hay`. -/
def containsSub (needle hay : String) : Bool :=
  containsL needle.data hay.data

/-- Split `hay` around the first occurrence of `pat`, returning the part
before the occurrence and the part after it (Python `find` + slicing). -/
def splitFirstL (pat : List Char) : List Char → Option (List Char × List Char)
  | [] => if startsWithL pat [] then some ([], []) else none
  | c :: cs =>
    if startsWithL pat (c :: cs) then some ([], (c :: cs).drop pat.length)
    else match splitFirstL pat cs with
      | some (pre, post) => some (c :: pre, post)
      | none => none

/-- Split on a single separator character (Python `str.split(sep)` for a
one-character separator; yields `[[]]` on the empty input, so that
`"".split(sep) == ['']`). -/
def splitCharL (sep : Char) : List Char → List (List Char)
  | [] => [[]]
  | c :: r =>
    let rest := splitCharL sep r
    if c == sep then [] :: rest
    else
      match rest with
      | h :: t => (c :: h) :: t
      | [] => [[c]]

/-- Python `s.split(sep)` for a one-character separator. -/
def pySplitChar (sep : Char) (s : String) : List String :=
  (splitCharL sep s.data).map (fun l => ⟨l⟩)

/-- Python `line.split('\n')`. -/
def pyLines (s : String) : List String := pySplitChar '\n' s

/-- Python `s.startswith(pre)`. -/
def pyStartsWith (s pre : String) : Bool := startsWithL pre.data s.data

/-- Python `s.endswith(post)`. -/
def pyEndsWith (s post : String) : Bool :=
  startsWithL post.data.reverse s.data.reverse

/-- Python `s.lower()` (ASCII case mapping, which covers the inputs used
by the analyzers). -/
def pyToLower (s : String) : String := ⟨s.data.map Char.toLower⟩

/-- Python slicing `s[-n:]` (last `n` characters; the whole string when
`n` exceeds the length, which matches `Nat` subtraction here). -/
def takeLast (s : String) (n : Nat) : String :=
  ⟨s.data.drop (s.data.length - n)⟩

/-- `\w` of Python `re` (ASCII range, which covers all inputs considered
here): letters, digits and underscore. -/
def isWordChar (c : Char) : Bool := c.isAlphanum || c == '_'

/-- Try to consume `"```" ++ \w* ++ "\n"` at the head of the input
(the opening delimiter of the fenced-block pattern); return the rest. -/
def matchFenceHead (l : List Char) : Option (List Char) :=
  if startsWithL ['`', '`', '`'] l then
    match (l.drop 3).dropWhile isWordChar with
    | '\n' :: r2 => some r2
    | _ => none
  else none

/-- Split around the LAST occurrence of `"\n```"` (the terminator chosen by
the greedy `(.*)`): returns the part before it and the part after it. -/
def splitLastFenceEnd : List Char → Option (List Char × List Char)
  | [] => none
  | c :: r =>
    match splitLastFenceEnd r with
    | some (mid, tail) => some (c :: mid, tail)
    | none =>
      match c, r with
      | '\n', '`' :: '`' :: '`' :: t => some ([], t)
      | _, _ => none

/-- Leftmost match of the whole pattern: returns `(before, group1, after)`. -/
def findFence : List Char → Option (List Char × List Char × List Char)
  | [] => none
  | c :: r =>
    match matchFenceHead (c :: r) with
    | some rest =>
      match splitLastFenceEnd rest with
      | some (mid, tail) => some ([], mid, tail)
      | none =>
        match findFence r with
        | some (pre, mid, tail) => some (c :: pre, mid, tail)
        | none => none
    | none =>
      match findFence r with
      | some (pre, mid, tail) => some (c :: pre, mid, tail)
      | none => none

/-- `remove_backticks` from `smart_commit/utils.py`: replace the (unique,
see above) match of ```` ```\w*\n(.*)\n``` ```` by its first group. -/
def remove_backticks (s : String) : String :=
  match findFence s.data with
  | some (pre, mid, tail) => ⟨pre ++ mid ++ tail⟩
  | none => s

/-- Python `s[:n]`. -/
def pyTake (s : String) (n : Nat) : String := ⟨s.data.take n⟩

/-- Python `s[n:]`. -/
def pyDrop (s : String) (n : Nat) : String := ⟨s.data.drop n⟩

/-- Python `\s` (the ASCII whitespace characters, which is also the set
`str.strip()` removes on the ASCII range). -/
def isSpaceChar (c : Char) : Bool :=
  c == ' ' || c == '\t' || c == '\n' || c == '\r' || c == '\x0b' || c == '\x0c'

/-- Python `s.strip()` with no argument. -/
def pyStrip (s : String) : String :=
  ⟨((s.data.dropWhile isSpaceChar).reverse.dropWhile isSpaceChar).reverse⟩

/-- The result dictionary of `validate_diff_size`. -/
structure DiffSizeReport where
  is_valid : Bool
  warnings : List String
  line_count : Nat
  char_count : Nat
  file_count : Nat
deriving DecidableEq

/-- `validate_diff_size(diff_content, max_lines=500, max_chars=50000)`:
`is_valid` is cleared by the two size checks; a high file count only warns.
Warning texts are the Python f-strings with their placeholders filled in. -/
def validate_diff_size (diff_content : String) (max_lines max_chars : Nat) :
    DiffSizeReport :=
  let lines := pyLines diff_content
  let line_count := lines.length
  let char_count := diff_content.length
  let file_count := (lines.filter (fun l => pyStartsWith l "diff --git")).length
  let w1 : List String :=
    if line_count > max_lines then
      ["Diff is very large (" ++ toString line_count ++ " lines). " ++
        "Consider splitting into smaller commits for better commit messages."]
    else []
  let w2 : List String :=
    if char_count > max_chars then
      ["Diff size is " ++ toString char_count ++
        " characters, which may exceed token limits. " ++
        "Consider committing files separately."]
    else []
  let w3 : List String :=
    if file_count > 20 then
      ["You're changing " ++ toString file_count ++ " files. " ++
        "Consider grouping related changes into separate commits."]
    else []
  { is_valid := !(decide (line_count > max_lines) || decide (char_count > max_chars)),
    warnings := w1 ++ w2 ++ w3,
    line_count := line_count,
    char_count := char_count,
    file_count := file_count }

/-- The result dictionary of `count_diff_stats`. -/
structure DiffStats where
  additions : Nat
  deletions : Nat
  files_changed : Nat
deriving DecidableEq

/-- `count_diff_stats(diff_content)`: counts every line starting with `+`
(respectively `-`), the `+++`/`---` markers included. -/
def count_diff_stats (diff_content : String) : DiffStats :=
  let lines := pyLines diff_content
  { additions := (lines.filter (fun l => pyStartsWith l "+")).length,
    deletions := (lines.filter (fun l => pyStartsWith l "-")).length,
    files_changed := (lines.filter (fun l => pyStartsWith l "diff --git")).length }

/-- The keys of `SENSITIVE_PATTERNS`, in dictionary (insertion) order. -/
def SENSITIVE_PATTERN_NAMES : List String :=
  ["AWS Access Key", "AWS Secret Key", "Generic API Key", "Generic Secret",
   "Generic Token", "Generic Password", "GitHub Token", "Generic Bearer Token",
   "Private Key", "Google API Key", "Slack Token", "Stripe Key", "JWT Token",
   "Database Connection String"]

/-- The masking applied to each matched text inside `detect_sensitive_data`:
`matched_text[:10] + "..." + matched_text[-5:]` when longer than 20
characters, `matched_text[:5] + "..."` otherwise. -/
def mask_match (m : String) : String :=
  if m.length > 20 then pyTake m 10 ++ "..." ++ takeLast m 5
  else pyTake m 5 ++ "..."

/-- `detect_sensitive_data(diff_content)`: scan added lines (those starting
with `+` but not `+++`), and for every pattern and every match on the line
record `(pattern_name, masked_text, line_number)` (line numbers start at 1). -/
def detect_sensitive_data (find : String → String → List String)
    (diff_content : String) : List (String × String × Nat) :=
  ((pyLines diff_content).enum.map (fun p =>
    let line_num := p.1 + 1
    let line := p.2
    if pyStartsWith line "+" && !(pyStartsWith line "+++") then
      (SENSITIVE_PATTERN_NAMES.map (fun name =>
        (find name line).map (fun m => (name, mask_match m, line_num)))).flatten
    else [])).flatten

/-- Extract the path after the first `' b/'` of a line
(`b_index = line.find(' b/'); line[b_index + 3:]`). -/
def extract_b_path (line : String) : Option String :=
  match splitFirstL " b/".data line.data with
  | some (_, post) => some ⟨post⟩
  | none => none

/-- The changed-file list built from `diff --git` header lines using the
`' b/'` extraction (used by `detect_scope_from_diff` and the splitter). -/
def changed_files_b (d : String) : List String :=
  (pyLines d).filterMap (fun line =>
    if pyStartsWith line "diff --git" then extract_b_path line else none)

/-- `add_scope`: bump the count of `k`, inserting it at the end when new. -/
def bumpScope : List (String × Nat) → String → List (String × Nat)
  | [], k => [(k, 1)]
  | (k', n) :: t, k =>
    if k' = k then (k', n + 1) :: t else (k', n) :: bumpScope t k

/-- One `if cond: add_scope(name)` step. -/
def bumpIf (m : List (String × Nat)) (cond : Bool) (k : String) :
    List (String × Nat) :=
  if cond then bumpScope m k else m

/-- The body of the `for filepath in changed_files` loop of
`detect_scope_from_diff`, with its checks in source order. -/
def addScopesForFile (m : List (String × Nat)) (filepath : String) :
    List (String × Nat) :=
  let parts := pySplitChar '/' filepath
  let lower := pyToLower filepath
  let m := if parts.length > 1 then
      (if ["src", "lib", "app"].contains (parts.headD "") then
        bumpScope m ((parts.get? 1).getD "")
      else bumpScope m (parts.headD ""))
    else m
  let m := bumpIf m (containsSub "test" lower) "tests"
  let m := bumpIf m (containsSub "doc" lower || pyEndsWith filepath ".md") "docs"
  let m := bumpIf m (containsSub "config" lower || pyEndsWith filepath ".yml" ||
      pyEndsWith filepath ".yaml" || pyEndsWith filepath ".toml" ||
      pyEndsWith filepath ".json" || pyEndsWith filepath ".ini") "config"
  let m := bumpIf m (pyEndsWith filepath ".css" || pyEndsWith filepath ".scss" ||
      pyEndsWith filepath ".sass" || pyEndsWith filepath ".less") "styles"
  let m := bumpIf m (containsSub "api" lower) "api"
  let m := bumpIf m (containsSub "cli" lower) "cli"
  let m := bumpIf m (containsSub "ui" lower || containsSub "component" lower) "ui"
  let m := bumpIf m (containsSub "db" lower || containsSub "database" lower ||
      containsSub "migration" lower) "database"
  let m := bumpIf m (containsSub "auth" lower) "auth"
  let m := bumpIf m (containsSub "util" lower || containsSub "helper" lower) "utils"
  m

/-- `scope_counts.pop(k, None)`. -/
def removeScopeKey (m : List (String × Nat)) (k : String) :
    List (String × Nat) :=
  m.filter (fun p => p.1 ≠ k)

/-- Stable insertion for Python `sorted(..., key=lambda x: (-x[1], x[0]))`:
keep `h` in front of `x` exactly when `h`'s key tuple is smaller. -/
def insertScope (x : String × Nat) : List (String × Nat) → List (String × Nat)
  | [] => [x]
  | h :: t =>
    if x.2 < h.2 || (x.2 = h.2 && h.1 < x.1) then h :: insertScope x t
    else x :: h :: t

/-- `sorted(scope_counts.items(), key=lambda x: (-x[1], x[0]))`. -/
def sortScopes (l : List (String × Nat)) : List (String × Nat) :=
  l.foldr insertScope []

/-- `detect_scope_from_diff(diff_content)`. -/
def detect_scope_from_diff (d : String) : List String :=
  let changed := changed_files_b d
  if changed.isEmpty then []
  else
    let counts := changed.foldl addScopesForFile []
    let counts := removeScopeKey (removeScopeKey (removeScopeKey
      (removeScopeKey counts "src") "lib") "app") ""
    ((sortScopes counts).take 5).map (fun p => p.1)

/-- The apostrophe character (used by the quote class `[\'"]`). -/
def squote : Char := Char.ofNat 39

/-- Consume a literal. -/
def litP (pat : String) (l : List Char) : Option (List Char) :=
  if startsWithL pat.data l then some (l.drop pat.data.length) else none

/-- Consume one character of the class `p`. -/
def charP (p : Char → Bool) : List Char → Option (List Char)
  | c :: r => if p c then some r else none
  | [] => none

/-- Maximal munch for a `+`-repetition of the class `p` (at least one). -/
def manyPlus (p : Char → Bool) : List Char → Option (List Char)
  | c :: r => if p c then some ((c :: r).dropWhile p) else none
  | [] => none

/-- First alternative that matches as a prefix (exact for the alternation
groups used here, none of which has prefix-related alternatives). -/
def anyLit : List String → List Char → Option (List Char)
  | [], _ => none
  | a :: rest, l =>
    match litP a l with
    | some r => some r
    | none => anyLit rest l

/-- `^\-\s*def\s+(\w+)\s*\(([^)]*)\)`. -/
def bpFunDef (line : String) : Bool :=
  (do
    let r ← litP "-" line.data
    let r := r.dropWhile isSpaceChar
    let r ← litP "def" r
    let r ← manyPlus isSpaceChar r
    let r ← manyPlus isWordChar r
    let r := r.dropWhile isSpaceChar
    let r ← litP "(" r
    let r := r.dropWhile (fun c => c != ')')
    let _ ← litP ")" r
    pure ()).isSome

/-- `^\-\s*public\s+\w+\s+(\w+)\s*\(`. -/
def bpPublicMethod (line : String) : Bool :=
  (do
    let r ← litP "-" line.data
    let r := r.dropWhile isSpaceChar
    let r ← litP "public" r
    let r ← manyPlus isSpaceChar r
    let r ← manyPlus isWordChar r
    let r ← manyPlus isSpaceChar r
    let r ← manyPlus isWordChar r
    let r := r.dropWhile isSpaceChar
    let _ ← litP "(" r
    pure ()).isSome

/-- `^\-\s*export\s+(function|class|interface|type)\s+(\w+)`. -/
def bpExportApi (line : String) : Bool :=
  (do
    let r ← litP "-" line.data
    let r := r.dropWhile isSpaceChar
    let r ← litP "export" r
    let r ← manyPlus isSpaceChar r
    let r ← anyLit ["function", "class", "interface", "type"] r
    let r ← manyPlus isSpaceChar r
    let _ ← manyPlus isWordChar r
    pure ()).isSome

/-- `^\-\s*@(app|router)\.(get|post|put|delete|patch)\([\'"]([^\'"]+)[\'"]\)`. -/
def bpEndpoint (line : String) : Bool :=
  (do
    let r ← litP "-" line.data
    let r := r.dropWhile isSpaceChar
    let r ← litP "@" r
    let r ← anyLit ["app", "router"] r
    let r ← litP "." r
    let r ← anyLit ["get", "post", "put", "delete", "patch"] r
    let r ← litP "(" r
    let r ← charP (fun c => c == '"' || c == squote) r
    let r ← manyPlus (fun c => !(c == '"' || c == squote)) r
    let r ← charP (fun c => c == '"' || c == squote) r
    let _ ← litP ")" r
    pure ()).isSome

/-- `^\-\s*(GET|POST|PUT|DELETE|PATCH)\s+/`. -/
def bpHttpRoute (line : String) : Bool :=
  (do
    let r ← litP "-" line.data
    let r := r.dropWhile isSpaceChar
    let r ← anyLit ["GET", "POST", "PUT", "DELETE", "PATCH"] r
    let r ← manyPlus isSpaceChar r
    let _ ← litP "/" r
    pure ()).isSome

/-- `^\-\s*(CREATE|ALTER|DROP)\s+(TABLE|COLUMN)`. -/
def bpDbSchema (line : String) : Bool :=
  (do
    let r ← litP "-" line.data
    let r := r.dropWhile isSpaceChar
    let r ← anyLit ["CREATE", "ALTER", "DROP"] r
    let r ← manyPlus isSpaceChar r
    let _ ← anyLit ["TABLE", "COLUMN"] r
    pure ()).isSome

/-- `^\-\s*Column\(`. -/
def bpDbColumn (line : String) : Bool :=
  (do
    let r ← litP "-" line.data
    let r := r.dropWhile isSpaceChar
    let _ ← litP "Column(" r
    pure ()).isSome

/-- `^\-\s*(required|mandatory)`. -/
def bpRequiredField (line : String) : Bool :=
  (do
    let r ← litP "-" line.data
    let r := r.dropWhile isSpaceChar
    let _ ← anyLit ["required", "mandatory"] r
    pure ()).isSome

/-- `^\-\s*class\s+\w+.*\(.*Config`: after `class\s+\w+` a `(` must occur,
with `Config` somewhere after it; the first `(` suffices exactly when any
does, so the backtracking search reduces to a first-occurrence split. -/
def bpConfigClass (line : String) : Bool :=
  (do
    let r ← litP "-" line.data
    let r := r.dropWhile isSpaceChar
    let r ← litP "class" r
    let r ← manyPlus isSpaceChar r
    let r ← manyPlus isWordChar r
    match splitFirstL ['('] r with
    | some (_, after) => if containsL "Config".data after then some () else none
    | none => none).isSome

/-- `^\-\s*interface\s+(\w+)`. -/
def bpInterfaceDef (line : String) : Bool :=
  (do
    let r ← litP "-" line.data
    let r := r.dropWhile isSpaceChar
    let r ← litP "interface" r
    let r ← manyPlus isSpaceChar r
    let _ ← manyPlus isWordChar r
    pure ()).isSome

/-- `^\-\s*type\s+(\w+)\s*=`. -/
def bpTypeDef (line : String) : Bool :=
  (do
    let r ← litP "-" line.data
    let r := r.dropWhile isSpaceChar
    let r ← litP "type" r
    let r ← manyPlus isSpaceChar r
    let r ← manyPlus isWordChar r
    let r := r.dropWhile isSpaceChar
    let _ ← litP "=" r
    pure ()).isSome

/-- `^\-\s*class\s+(\w+)`. -/
def bpClassDef (line : String) : Bool :=
  (do
    let r ← litP "-" line.data
    let r := r.dropWhile isSpaceChar
    let r ← litP "class" r
    let r ← manyPlus isSpaceChar r
    let _ ← manyPlus isWordChar r
    pure ()).isSome

/-- `^\-\s*"([^"]+)":\s*"\^?(\d+)\.`: when a caret is present it must be
consumed (skipping it would leave `\d+` facing the caret), so the optional
`\^?` is a plain conditional. -/
def bpDependency (line : String) : Bool :=
  (do
    let r ← litP "-" line.data
    let r := r.dropWhile isSpaceChar
    let r ← litP "\"" r
    let r ← manyPlus (fun c => c != '"') r
    let r ← litP "\":" r
    let r := r.dropWhile isSpaceChar
    let r ← litP "\"" r
    let r := match r with
      | '^' :: r2 => r2
      | _ => r
    let r ← manyPlus Char.isDigit r
    let _ ← litP "." r
    pure ()).isSome

/-- `^\-\s*(export|public)\s`. -/
def bpPublicExport (line : String) : Bool :=
  (do
    let r ← litP "-" line.data
    let r := r.dropWhile isSpaceChar
    let r ← anyLit ["export", "public"] r
    let _ ← charP isSpaceChar r
    pure ()).isSome

/-- The `breaking_patterns` dictionary, in source (insertion) order:
matcher and associated reason. -/
def breaking_patterns : List ((String → Bool) × String) :=
  [(bpFunDef, "Function signature changed"),
   (bpPublicMethod, "Public method signature changed"),
   (bpExportApi, "Exported API changed"),
   (bpEndpoint, "API endpoint removed/changed"),
   (bpHttpRoute, "HTTP route changed"),
   (bpDbSchema, "Database schema change"),
   (bpDbColumn, "Database column definition changed"),
   (bpRequiredField, "Required field removed"),
   (bpConfigClass, "Configuration class changed"),
   (bpInterfaceDef, "Interface definition changed"),
   (bpTypeDef, "Type definition changed"),
   (bpClassDef, "Class definition changed"),
   (bpDependency, "Dependency version changed"),
   (bpPublicExport, "Public API element removed")]

/-- The first pattern matching a removed line, if any (`break` after the
first match in the source). -/
def firstBreakingReason (line : String) : Option String :=
  (breaking_patterns.find? (fun p => p.1 line)).map (fun p => p.2)

/-- `f"{current_file}: {line[1:].strip()[:80]}"` (`None` prints as `"None"`). -/
def breakingDetail (cur : Option String) (line : String) : String :=
  (match cur with | some p => p | none => "None") ++ ": " ++
    pyTake (pyStrip (pyDrop line 1)) 80

/-- `parts = line.split(' '); parts[3][2:]` under the `len(parts) >= 4`
guard: the current-file tracking of `detect_breaking_changes` and the
changed-file extraction of `analyze_diff_impact`. -/
def part3_path (line : String) : Option String :=
  let parts := pySplitChar ' ' line
  if parts.length ≥ 4 then some (pyDrop ((parts.get? 3).getD "") 2) else none

/-- `detect_breaking_changes(diff_content)`: track the current file from
`diff --git` headers, report the first matching pattern for each removed
line, and keep only the first 10 findings. -/
def detect_breaking_changes (d : String) : List (String × String) :=
  let step := fun (st : Option String × List (String × String)) (line : String) =>
    let cur := if pyStartsWith line "diff --git" then
        match part3_path line with
        | some p => some p
        | none => st.1
      else st.1
    let acc := if pyStartsWith line "-" && !(pyStartsWith line "---") then
        match firstBreakingReason line with
        | some reason => st.2 ++ [(reason, breakingDetail cur line)]
        | none => st.2
      else st.2
    (cur, acc)
  (((pyLines d).foldl step (none, [])).2).take 10

/-- The result dictionary of `analyze_diff_impact`. -/
structure ImpactReport where
  breaking_changes : List (String × String)
  risk_level : String
  affected_areas : List String
  change_type : String
  additions : Nat
  deletions : Nat
  files_changed : Nat
deriving DecidableEq

/-- The changed-file list of `analyze_diff_impact` (built with
`parts[3][2:]`, unlike the `' b/'` extraction used elsewhere). -/
def changed_files_p3 (d : String) : List String :=
  (pyLines d).filterMap (fun line =>
    if pyStartsWith line "diff --git" then part3_path line else none)

/-- Additions counted by `analyze_diff_impact` (unlike `count_diff_stats`,
the `+++` marker lines are excluded). -/
def impact_additions (d : String) : Nat :=
  ((pyLines d).filter (fun l =>
    pyStartsWith l "+" && !(pyStartsWith l "+++"))).length

/-- Deletions counted by `analyze_diff_impact` (`---` lines excluded). -/
def impact_deletions (d : String) : Nat :=
  ((pyLines d).filter (fun l =>
    pyStartsWith l "-" && !(pyStartsWith l "---"))).length

/-- `analyze_diff_impact(diff_content)`. -/
def analyze_diff_impact (d : String) : ImpactReport :=
  let breaking := detect_breaking_changes d
  let additions := impact_additions d
  let deletions := impact_deletions d
  let changed := changed_files_p3 d
  let change_type :=
    if changed.any (fun f => containsSub ".md" f || containsSub "doc" (pyToLower f))
      then "docs"
    else if changed.any (fun f => containsSub "test" (pyToLower f)) then "test"
    else if additions > deletions * 2 then "feature"
    else if deletions > additions * 2 then "removal"
    else if !breaking.isEmpty then "breaking"
    else "refactor"
  let risk_level :=
    if !breaking.isEmpty then "high"
    else if deletions > 100 || additions > 500 then "high"
    else if deletions > 50 || additions > 200 then "medium"
    else "low"
  { breaking_changes := breaking,
    risk_level := risk_level,
    affected_areas := detect_scope_from_diff d,
    change_type := change_type,
    additions := additions,
    deletions := deletions,
    files_changed := changed.length }

/-- The change-type decision procedure exactly as the specification words
it: first matching rule wins, in the order documentation, tests, feature
(additions more than twice deletions), removal (deletions more than twice
additions), breaking findings, refactor fallback. -/
def spec_change_type (d : String) : String :=
  if (changed_files_p3 d).any
      (fun f => containsSub ".md" f || containsSub "doc" (pyToLower f)) then "docs"
  else if (changed_files_p3 d).any (fun f => containsSub "test" (pyToLower f)) then
    "test"
  else if impact_additions d > 2 * impact_deletions d then "feature"
  else if impact_deletions d > 2 * impact_additions d then "removal"
  else if detect_breaking_changes d ≠ [] then "breaking"
  else "refactor"

/-- A parsed per-file record of `_parse_diff_files` (a Python dict with
keys `path`, `additions`, `deletions`).

Records are saved here by value.  In the Python source the dict appended on
seeing the next header is the same object later mutated, which only matters
when a malformed `diff --git` line makes the parser append one dict twice;
the theorems about this parser are stated for diffs whose headers are all
well formed, where the two semantics coincide (and the concrete inputs
evaluated below append each record at most once). -/
structure DiffFileRec where
  path : String
  additions : Nat
  deletions : Nat
deriving DecidableEq

/-- One step of the `_parse_diff_files` line loop.  State: the open record
(path of `current_file`), its running `additions`/`deletions`, and the list
of saved records. -/
def parseFilesStep (st : Option String × Nat × Nat × List DiffFileRec)
    (line : String) : Option String × Nat × Nat × List DiffFileRec :=
  let (cur, adds, dels, acc) := st
  if pyStartsWith line "diff --git" then
    let acc := match cur with
      | some p => acc ++ [⟨p, adds, dels⟩]
      | none => acc
    if (pySplitChar ' ' line).length ≥ 4 then
      match extract_b_path line with
      | some fp => (some fp, 0, 0, acc)
      | none => (cur, adds, dels, acc)
    else (cur, adds, dels, acc)
  else if pyStartsWith line "+" && !(pyStartsWith line "+++") then
    (cur, adds + 1, dels, acc)
  else if pyStartsWith line "-" && !(pyStartsWith line "---") then
    (cur, adds, dels + 1, acc)
  else st

/-- `_parse_diff_files(diff_content)`: run the loop, then save the still
open record. -/
def parse_diff_files (d : String) : List DiffFileRec :=
  let fin := (pyLines d).foldl parseFilesStep (none, 0, 0, [])
  match fin.1 with
  | some p => fin.2.2.2 ++ [⟨p, fin.2.1, fin.2.2.1⟩]
  | none => fin.2.2.2

/-- `_is_test_file(filepath)`. -/
def is_test_file (filepath : String) : Bool :=
  containsSub "test" (pyToLower filepath) ||
  pyStartsWith filepath "tests/" ||
  pyEndsWith filepath "_test.py" ||
  pyEndsWith filepath ".test.js" ||
  pyEndsWith filepath ".spec.js" ||
  pyEndsWith filepath ".test.ts" ||
  pyEndsWith filepath ".spec.ts"

/-- `_is_doc_file(filepath)`. -/
def is_doc_file (filepath : String) : Bool :=
  pyEndsWith filepath ".md" ||
  pyEndsWith filepath ".rst" ||
  pyEndsWith filepath ".txt" ||
  containsSub "doc" (pyToLower filepath) ||
  pyStartsWith filepath "docs/"

/-- `_is_config_file(filepath)`.  The pattern list is kept verbatim from the
source: `"Dockerfile"` and `"Cargo.toml"` contain capitals but are tested
against the lowercased path, so they can never match. -/
def is_config_file (filepath : String) : Bool :=
  let lower := pyToLower filepath
  [".toml", ".yaml", ".yml", ".json", ".ini", ".cfg",
   "Dockerfile", "docker-compose", ".env", "requirements",
   "package.json", "package-lock.json", "Cargo.toml",
   "go.mod", "go.sum", "pom.xml", "build.gradle"].any
    (fun pat => containsSub pat lower)

/-- `CommitGroup` from `commit_splitter.py`. -/
structure CommitGroup where
  name : String
  files : List String
  reason : String
  scope : String
  priority : Nat
deriving DecidableEq

/-- Python `str.title()` on the ASCII range: a letter is uppercased when the
previous character is not a letter, lowercased otherwise. -/
def titleCaseL (prevAlpha : Bool) : List Char → List Char
  | [] => []
  | c :: r =>
    let c' := if c.isAlpha then (if prevAlpha then c.toLower else c.toUpper) else c
    c' :: titleCaseL c.isAlpha r

/-- Python `s.title()`. -/
def pyTitle (s : String) : String := ⟨titleCaseL false s.data⟩

/-- `_group_by_scope(files)`: an insertion-ordered map from scope to the
records carrying it.  The scope is the first path component, refined to the
second one under `src`/`lib`; root-level files get scope `root`. -/
def scopeOfRecord (f : DiffFileRec) : String :=
  let parts := pySplitChar '/' f.path
  if parts.length > 1 then
    if ["src", "lib"].contains (parts.headD "") then (parts.get? 1).getD ""
    else parts.headD ""
  else "root"

/-- Append `f` under key `k`, preserving dict insertion order. -/
def addToScopeMap (m : List (String × List DiffFileRec)) (k : String)
    (f : DiffFileRec) : List (String × List DiffFileRec) :=
  match m with
  | [] => [(k, [f])]
  | (k', fs) :: t =>
    if k' = k then (k', fs ++ [f]) :: t else (k', fs) :: addToScopeMap t k f

/-- `_group_by_scope(files)`. -/
def group_by_scope (files : List DiffFileRec) :
    List (String × List DiffFileRec) :=
  files.foldl (fun m f => addToScopeMap m (scopeOfRecord f) f) []

/-- Stable insertion for `groups.sort(key=lambda g: g.priority)`: since the
sort below inserts from the right, the element `x` being inserted precedes
every element of `t` in the original list, so `h` stays in front of `x`
only when its priority is strictly smaller (Python `list.sort` is stable). -/
def insertByPriority (x : CommitGroup) : List CommitGroup → List CommitGroup
  | [] => [x]
  | h :: t => if h.priority < x.priority then h :: insertByPriority x t
    else x :: h :: t

/-- `groups.sort(key=lambda g: g.priority)` (stable). -/
def sortGroups (l : List CommitGroup) : List CommitGroup :=
  l.foldr insertByPriority []

/-- The three category groups and the per-scope groups of
`analyze_commit_split`, before sorting. -/
def rawCommitGroups (files_data : List DiffFileRec) : List CommitGroup :=
  let test_files := files_data.filter (fun f => is_test_file f.path)
  let doc_files := files_data.filter (fun f => is_doc_file f.path)
  let config_files := files_data.filter (fun f => is_config_file f.path)
  let g1 : List CommitGroup :=
    if test_files.isEmpty then [] else
      [{ name := "Tests", files := test_files.map (fun f => f.path),
         reason := "Separate test changes for easier review and CI validation",
         scope := "test", priority := 3 }]
  let g2 : List CommitGroup :=
    if doc_files.isEmpty then [] else
      [{ name := "Documentation", files := doc_files.map (fun f => f.path),
         reason := "Documentation updates independent of code changes",
         scope := "docs", priority := 4 }]
  let g3 : List CommitGroup :=
    if config_files.isEmpty then [] else
      [{ name := "Configuration", files := config_files.map (fun f => f.path),
         reason := "Configuration changes that affect build/deploy",
         scope := "config", priority := 2 }]
  let remaining := files_data.filter (fun f =>
    decide (f ∉ test_files) && decide (f ∉ doc_files) && decide (f ∉ config_files))
  let g4 : List CommitGroup :=
    if remaining.isEmpty then [] else
      (group_by_scope remaining).filterMap (fun p =>
        if p.2.length ≥ 2 then
          some { name := pyTitle p.1 ++ " Changes",
                 files := p.2.map (fun f => f.path),
                 reason := "Related " ++ p.1 ++ " functionality changes",
                 scope := p.1, priority := 1 }
        else none)
  g1 ++ g2 ++ g3 ++ g4

/-- `analyze_commit_split(diff_content)`. -/
def analyze_commit_split (d : String) : List CommitGroup :=
  let files_data := parse_diff_files d
  if files_data.length ≤ 5 then []
  else sortGroups (rawCommitGroups files_data)

/-- The fields of `CommitTemplateConfig` read by the prompt builder.
`max_subject_length` keeps Python truthiness: `0` disables the length
requirement line. -/
structure TemplateCfg where
  max_subject_length : Nat
  max_recent_commits : Nat
  max_context_file_size : Nat
  include_body : Bool
  include_reasoning : Bool
  conventional_commits : Bool
  custom_prefixes : List (String × String)
  example_formats : List String
deriving DecidableEq

/-- The fields of `RepositoryContext` read by the prompt builder.
`tech_stack` and `recent_commits` are guarded by `isinstance(..., list)` in
the source, modelled as `Option`; `description` is truth-tested, so `none`
and `some ""` both omit the line. -/
structure RepoContext where
  name : String
  description : Option String
  tech_stack : Option (List String)
  recent_commits : Option (List String)
deriving DecidableEq

/-- The fields of `RepositoryConfig` read by the prompt builder. -/
structure RepoConfig where
  name : String
  absolute_path : Option String
  commit_conventions : List (String × String)
  context_files : List String
deriving DecidableEq

/-- The filesystem as seen by `_get_repository_context_section`: path
resolution (`Path.resolve`), existence and is-file tests, and file reading;
`Except.error e` models `read_text` (or `stat`) raising, with `e` the
printed exception text. -/
structure FileSystem where
  resolve : String → String
  pathExists : String → Bool
  isFile : String → Bool
  readFile : String → Except String String

/-- Python `sep.join(l)`. -/
def pyJoin (sep : String) : List String → String
  | [] => ""
  | [x] => x
  | x :: r => x ++ sep ++ pyJoin sep r

/-- `Path(repo_path) / name` (string-level join; only its use as a lookup
key in the `FileSystem` record matters here). -/
def pathJoin (rp name : String) : String := rp ++ "/" ++ name

/-- `_get_system_prompt` (the two trailing blanks before the line breaks
are in the Python triple-quoted literal). -/
def get_system_prompt : String :=
  "You are an expert software engineer specializing in writing clear, meaningful git commit messages. \nAnalyze the provided git diff and repository context to generate a commit message that accurately reflects \nthe changes and follows best practices."

/-- One `- **{context_file}:** ...` entry of the context-files block. -/
def context_file_entry (fs : FileSystem) (maxSize : Nat) (rp cf : String) :
    String :=
  let fp := pathJoin rp cf
  if fs.pathExists fp && fs.isFile fp then
    match fs.readFile fp with
    | Except.ok raw =>
      let content := pyStrip raw
      let content :=
        if content.length > maxSize then
          pyTake content maxSize ++ "\n\n... (truncated, file is " ++
            toString content.length ++ " chars, showing first " ++
            toString maxSize ++ ")"
        else content
      "  - **" ++ cf ++ ":**\n    ```\n    " ++ content ++ "\n    ```"
    | Except.error e => "  - **" ++ cf ++ ":** (Error reading file: " ++ e ++ ")"
  else "  - **" ++ cf ++ ":** (File not found)"

/-- The repository path of `_get_repository_context_section`:
`Path(cfg.absolute_path) if repo_config and repo_config.absolute_path else
Path(".")` (an empty `absolute_path` is falsy). -/
def repoPathOf (rcfg : Option RepoConfig) : String :=
  match rcfg with
  | some rc =>
    match rc.absolute_path with
    | some p => if p = "" then "." else p
    | none => "."
  | none => "."

/-- `_get_repository_context_section`.  The context-files block is included
only when not in privacy mode (spec section 5.2: embedded context-file
contents are suppressed entirely by privacy mode; the `privacy_mode`
parameter is absent from the `templates.py` under verification, whose tests
and CLI callers do pass it, so its effect is modelled from the spec). -/
def get_repository_context_section (fs : FileSystem) (cfg : TemplateCfg)
    (ctx : RepoContext) (rcfg : Option RepoConfig) (privacy : Bool) : String :=
  let rp := repoPathOf rcfg
  let base := ["**Repository Context:**", "- **Name:** " ++ ctx.name,
    "- **Path:** " ++ fs.resolve rp]
  let ctxFiles :=
    match rcfg with
    | some rc =>
      if !privacy && !rc.context_files.isEmpty && fs.pathExists rp then
        ["- **Context Files:**"] ++
          rc.context_files.map (context_file_entry fs cfg.max_context_file_size rp)
      else []
    | none => []
  let desc :=
    match ctx.description with
    | some s => if s = "" then [] else ["- **Description:** " ++ s]
    | none => []
  let tech :=
    match ctx.tech_stack with
    | some ts => ["- **Tech Stack:** " ++ pyJoin ", " ts]
    | none => []
  let recent :=
    match ctx.recent_commits with
    | some rcs =>
      let m := if cfg.max_recent_commits = 0 then 5 else cfg.max_recent_commits
      ["- **Recent Commits (up to " ++ toString m ++ "):**"] ++
        (rcs.take m).map (fun c => "  - " ++ c)
    | none => []
  let conv :=
    match rcfg with
    | some rc =>
      if rc.commit_conventions.isEmpty then []
      else ["- **Project Conventions:**"] ++
        rc.commit_conventions.map (fun p => "  - " ++ p.1 ++ ": " ++ p.2)
    | none => []
  pyJoin "\n" (base ++ ctxFiles ++ desc ++ tech ++ recent ++ conv)

/-- `_get_scope_suggestions_section`. -/
def get_scope_suggestions_section (scopes : List String) : String :=
  if scopes.isEmpty then ""
  else
    "**Suggested Scopes (based on changed files):**\n" ++
      pyJoin ", " (scopes.map (fun s => "`" ++ s ++ "`")) ++
      "\n\nConsider using one of these scopes if appropriate for conventional commits."

/-- `_get_breaking_changes_section`: renders only the first five findings. -/
def get_breaking_changes_section (bc : List (String × String)) : String :=
  if bc.isEmpty then ""
  else
    "**⚡ BREAKING CHANGES DETECTED:**\n" ++
      pyJoin "\n" ((bc.take 5).map (fun p => "  - " ++ p.1 ++ ": " ++ p.2)) ++
      "\n\nIMPORTANT: If these are truly breaking changes, add a 'BREAKING CHANGE:' footer to your commit message explaining the impact and migration path. This is critical for semantic versioning (triggers major version bump)."

/-- `_get_diff_section`. -/
def get_diff_section (diff_content : String) : String :=
  "**Git Diff:**\n```diff\n" ++ diff_content ++ "\n```"

/-- `_get_requirements_section`. -/
def get_requirements_section (cfg : TemplateCfg) : String :=
  let reqs := ["**Requirements:**",
    "1. Analyze the changes to understand their purpose and scope",
    "2. Use conventional commit format if enabled",
    "3. Keep the subject line concise and descriptive"]
  let reqs := reqs ++
    (if cfg.conventional_commits then
      ["4. Use appropriate conventional commit prefixes:"] ++
        (if cfg.custom_prefixes.isEmpty then []
         else ["  Custom commit prefixes:"] ++
           cfg.custom_prefixes.map (fun p => "   - `" ++ p.1 ++ ":` " ++ p.2))
     else [])
  let reqs := reqs ++
    (if cfg.max_subject_length ≠ 0 then
      ["5. Keep subject line under " ++ toString cfg.max_subject_length ++
        " characters"]
     else [])
  let reqs := reqs ++
    (if cfg.include_body then
      ["6. Include a detailed body explaining the changes"] else [])
  let reqs := reqs ++
    (if cfg.include_reasoning then
      ["7. Include reasoning for the changes when helpful"] else [])
  pyJoin "\n" reqs

/-- `_get_examples_section`. -/
def get_examples_section (cfg : TemplateCfg) : String :=
  pyJoin "\n"
    (["**Example Formats of Commit Messages (each separated in its own code block):**"] ++
      cfg.example_formats.map (fun e => "```\n" ++ e ++ "\n```"))

/-- Keep the first occurrence of each element (label order is order of
first appearance in the diff headers). -/
def distinctFirst (seen : List String) : List String → List String
  | [] => []
  | x :: r =>
    if seen.contains x then distinctFirst seen r
    else x :: distinctFirst (x :: seen) r

/-- The distinct changed-file paths of the diff headers, in order of first
appearance (empty extractions are dropped: they name no file). -/
def anonPaths (d : String) : List String :=
  distinctFirst [] ((changed_files_b d).filter (fun p => p ≠ ""))

/-- The sequential label of path `p`: `file1` for the first distinct header
path, `file2` for the second, and so on. -/
def anonLabel (paths : List String) (p : String) : String :=
  "file" ++ toString (paths.indexOf p + 1)

/-- Replace every occurrence of `pat` (leftmost first) by `rep`; the fuel
is the input length, which suffices since every step consumes at least one
character of a nonempty `pat`. -/
def replaceAllFuel (fuel : Nat) (pat rep : List Char) (l : List Char) :
    List Char :=
  match fuel with
  | 0 => l
  | fuel + 1 =>
    match l with
    | [] => []
    | c :: r =>
      if startsWithL pat (c :: r) && !pat.isEmpty then
        rep ++ replaceAllFuel fuel pat rep ((c :: r).drop pat.length)
      else c :: replaceAllFuel fuel pat rep r

/-- Replace every occurrence of `pat` by `rep` (`pat` is never empty where
this is used). -/
def replaceAll (s pat rep : String) : String :=
  ⟨replaceAllFuel s.data.length pat.data rep.data s.data⟩

/-- A diff header line: the `diff --git` line and the `---`/`+++` marker
lines carrying the old/new file names. -/
def isDiffHeaderLine (l : String) : Bool :=
  pyStartsWith l "diff --git" || pyStartsWith l "--- " || pyStartsWith l "+++ "

/-- Modelled from the spec: on header lines, each known path is replaced by
its sequential label; every other line is preserved verbatim. -/
def anonymizeLine (paths : List String) (l : String) : String :=
  if isDiffHeaderLine l then
    paths.foldl (fun acc p => replaceAll acc p (anonLabel paths p)) l
  else l

/-- Modelled from the spec: the privacy-mode diff transform. -/
def anonymize_diff (d : String) : String :=
  pyJoin "\n" ((pyLines d).map (anonymizeLine (anonPaths d)))

/-- `build_prompt(diff_content, repo_context, repo_config=None,
additional_context=None, privacy_mode=False)`: concatenation of the section
strings, empty sections dropped (`filter(None, ...)`), joined by blank
lines.  The `privacy_mode=True` branch (diff anonymization, context-file
suppression) is modelled from the spec as explained above. -/
def build_prompt (diff_content : String) (ctx : RepoContext)
    (rcfg : Option RepoConfig) (additional : Option String)
    (cfg : TemplateCfg) (fs : FileSystem) (privacy : Bool) : String :=
  let shownDiff := if privacy then anonymize_diff diff_content else diff_content
  let parts := [get_system_prompt,
    get_repository_context_section fs cfg ctx rcfg privacy,
    get_scope_suggestions_section (detect_scope_from_diff diff_content),
    get_breaking_changes_section (detect_breaking_changes diff_content),
    get_diff_section shownDiff,
    get_requirements_section cfg,
    get_examples_section cfg]
  let parts := parts ++
    (match additional with
     | some a => if a = "" then [] else ["\n**Additional Context:**\n" ++ a]
     | none => [])
  let parts := parts ++
    ["*IMPORTANT: Your output should only contain the commit message, nothing else.*"]
  pyJoin "\n\n" (parts.filter (fun p => p ≠ ""))

/-- `CommitMessageFormatter.format_message`: strip, then remove the fenced
block wrapper. -/
def format_message (raw_message : String) : String :=
  remove_backticks (pyStrip raw_message)

/-- A `diff --git` header line. -/
def isHeaderLineB (l : String) : Bool := pyStartsWith l "diff --git"

/-- A header the parser accepts: at least 4 space-separated parts and a
`' b/'` occurrence. -/
def headerOkB (l : String) : Bool :=
  decide ((pySplitChar ' ' l).length ≥ 4) && (extract_b_path l).isSome

/-- An added content line (`+` but not `+++`). -/
def plusLineB (l : String) : Bool :=
  pyStartsWith l "+" && !(pyStartsWith l "+++")

/-- A removed content line (`-` but not `---`). -/
def minusLineB (l : String) : Bool :=
  pyStartsWith l "-" && !(pyStartsWith l "---")

/-- A well-behaved diff: every `diff --git` line is well formed, and no
content line precedes the first header. -/
def goodDiffB (d : String) : Bool :=
  (pyLines d).all (fun l => !isHeaderLineB l || headerOkB l) &&
  ((pyLines d).takeWhile (fun l => !isHeaderLineB l)).all
    (fun l => !plusLineB l && !minusLineB l)

/-- Total additions of a record list. -/
def sumAdds (rs : List DiffFileRec) : Nat := (rs.map (fun r => r.additions)).sum

/-- Total deletions of a record list. -/
def sumDels (rs : List DiffFileRec) : Nat := (rs.map (fun r => r.deletions)).sum

/-- Saving the still-open record at the end of the parse loop. -/
def finalizeParse (st : Option String × Nat × Nat × List DiffFileRec) :
    List DiffFileRec :=
  match st.1 with
  | some p => st.2.2.2 ++ [⟨p, st.2.1, st.2.2.1⟩]
  | none => st.2.2.2

/-- The context files consulted by the prompt builder. -/
def contextFilesOf : Option RepoConfig → List String
  | some rc => rc.context_files
  | none => []

/-- A minimal concrete repository context for concrete evaluations. -/
def cxCtx : RepoContext :=
  { name := "r", description := none, tech_stack := none,
    recent_commits := none }

/-- A minimal concrete template configuration. -/
def cxCfg : TemplateCfg :=
  { max_subject_length := 0, max_recent_commits := 0,
    max_context_file_size := 100, include_body := false,
    include_reasoning := false, conventional_commits := false,
    custom_prefixes := [], example_formats := [] }

/-- A concrete filesystem on which nothing exists. -/
def cxFS : FileSystem :=
  { resolve := fun p => p, pathExists := fun _ => false,
    isFile := fun _ => false, readFile := fun _ => Except.error "e" }

/-! ## Theorems -/

theorem startsWithL_length {p l : List Char} (h : startsWithL p l = true) :
    p.length ≤ l.length := by
  induction p generalizing l with
  | nil => simp
  | cons c cs ih =>
    cases l with
    | nil => simp [startsWithL] at h
    | cons d ds =>
      simp only [startsWithL, Bool.and_eq_true] at h
      simpa [List.length_cons, Nat.succ_le_succ_iff] using ih h.2

theorem containsL_length {p l : List Char} (h : containsL p l = true) :
    p.length ≤ l.length := by
  induction l with
  | nil => exact startsWithL_length h
  | cons c cs ih =>
    simp only [containsL, Bool.or_eq_true] at h
    rcases h with h | h
    · exact startsWithL_length h
    · exact Nat.le_trans (ih h) (Nat.le_succ _)

theorem containsSub_length {needle hay : String}
    (h : containsSub needle hay = true) : needle.length ≤ hay.length := by
  exact containsL_length (p := needle.data) (l := hay.data) h

example : remove_backticks "```python\nx = 1\n```" = "x = 1" := by decide

example : remove_backticks "no fence" = "no fence" := by decide

example : remove_backticks "```\nA\n``````\nB\n```" = "A\n``````\nB" := by decide

example :
    remove_backticks "```\nX\n```a\nY\n```\nZ\n```" = "X\n```a\nY\n```\nZ" := by
  decide

example :
    remove_backticks "X\n```a\nY\n```\nZ" = "X\nY\nZ" := by decide

theorem matchFenceHead_sub {l r : List Char} (h : matchFenceHead l = some r) :
    startsWithL ['`', '`', '`'] l = true := by
  unfold matchFenceHead at h
  by_cases hs : startsWithL ['`', '`', '`'] l = true
  · exact hs
  · simp [hs] at h

theorem findFence_contains {l : List Char} {pre mid tail : List Char}
    (h : findFence l = some (pre, mid, tail)) :
    containsL ['`', '`', '`'] l = true := by
  induction l generalizing pre mid tail with
  | nil => simp [findFence] at h
  | cons c r ih =>
    by_cases hc : containsL ['`', '`', '`'] (c :: r) = true
    · exact hc
    · exfalso
      simp only [findFence] at h
      cases hh : matchFenceHead (c :: r) with
      | some rest =>
        have := matchFenceHead_sub hh
        simp [containsL, this] at hc
      | none =>
        rw [hh] at h
        cases hf : findFence r with
        | some x =>
          obtain ⟨p2, m2, t2⟩ := x
          have := ih hf
          simp [containsL, this] at hc
        | none => rw [hf] at h; cases h

theorem remove_backticks_of_none {t : String} (h : findFence t.data = none) :
    remove_backticks t = t := by
  unfold remove_backticks
  rw [h]

theorem remove_backticks_fix {s : String}
    (h : containsSub "```" (remove_backticks s) = false) :
    remove_backticks (remove_backticks s) = remove_backticks s := by
  cases hf : findFence (remove_backticks s).data with
  | some x =>
    obtain ⟨pre, mid, tail⟩ := x
    have := findFence_contains hf
    unfold containsSub at h
    rw [h] at this
    cases this
  | none => exact remove_backticks_of_none hf

example : remove_backticks "```\n\n```" = "" := by decide

example : remove_backticks "a```b\nM\n```c" = "aMc" := by decide

example : remove_backticks "``` \nM\n```" = "``` \nM\n```" := by decide

example : remove_backticks "```\nM\n``` trailing" = "M trailing" := by decide

example :
    remove_backticks "pre```w\nM\n```post\n```x\nN\n```" =
      "preM\n```post\n```x\nN" := by decide

theorem pyTake_length (s : String) (n : Nat) :
    (pyTake s n).length = min n s.length := by
  show (s.data.take n).length = min n s.data.length
  rw [List.length_take]

theorem takeLast_length (s : String) (n : Nat) :
    (takeLast s n).length = min n s.length := by
  show (s.data.drop (s.data.length - n)).length = min n s.data.length
  rw [List.length_drop]
  omega

example :
    detect_scope_from_diff
      "diff --git a/src/auth/login.py b/src/auth/login.py\n+x" =
    ["auth"] := by decide

example : detect_scope_from_diff "no headers here" = [] := by decide

example :
    detect_breaking_changes "-def foo(a):" =
      [("Function signature changed", "None: def foo(a):")] := by decide

example : detect_breaking_changes "" = [] := by decide

example :
    detect_breaking_changes
      "diff --git a/api.py b/api.py\n-def function(a):\n+def function(a, b):" =
      [("Function signature changed", "api.py: def function(a):")] := by decide

example : bpFunDef "- def foo (a, b)" = true := by decide

example : bpFunDef "-deff x(" = false := by decide

example : bpFunDef "-def x (no close" = false := by decide

example : bpPublicMethod "-public static void main(" = false := by decide

example : bpPublicMethod "-public int x(" = true := by decide

example : bpExportApi "-export classy" = false := by decide

example : bpExportApi "-export type T" = true := by decide

example : bpEndpoint "-@app.get('/users')" = true := by decide

example : bpEndpoint "-@app.get(\"\")" = false := by decide

example : bpHttpRoute "-POST/x" = false := by decide

example : bpHttpRoute "-DELETE  /a" = true := by decide

example : bpDbSchema "-DROP  TABLE y" = true := by decide

example : bpRequiredField "-required: true" = true := by decide

example : bpConfigClass "-class Foo(BaseConfig):" = true := by decide

example : bpConfigClass "-class Foo Config(" = false := by decide

example : bpConfigClass "-class A(x) then Config" = true := by decide

example : bpConfigClass "-class (Config" = false := by decide

example : bpTypeDef "-type T=x" = true := by decide

example : bpDependency "-\"lodash\": \"^4.17.0\"" = true := by decide

example : bpDependency "-\"a\":\"3.1\"" = true := by decide

example : bpDependency "-\"a\": \"^x.1\"" = false := by decide

example : bpPublicExport "-public" = false := by decide

example : bpPublicExport "-export default" = true := by decide

example : parse_diff_files "" = [] := by decide

example : parse_diff_files "diff --git" = [] := by decide

example :
    parse_diff_files "diff --git a/x b/x\n+one\n+two\n-three" =
      [⟨"x", 2, 1⟩] := by decide

example :
    parse_diff_files "+before\ndiff --git a/x b/x\n+y" = [⟨"x", 1, 0⟩] := by
  decide

example : pyTitle "root" = "Root" := by decide

example : pyTitle "mixed words" = "Mixed Words" := by decide

example :
    anonymize_diff
      "diff --git a/src/auth/login.py b/src/auth/login.py\n--- a/src/auth/login.py\n+++ b/src/auth/login.py\n+def authenticate():\ndiff --git a/src/api/routes.py b/src/api/routes.py\n+x" =
      "diff --git a/file1 b/file1\n--- a/file1\n+++ b/file1\n+def authenticate():\ndiff --git a/file2 b/file2\n+x" := by
  decide

/-- C7: for every diff text and thresholds, `validate_diff_size` reports
`is_valid = false` exactly when `line_count > max_lines` or
`char_count > max_chars`; a file count above 20 contributes one warning to
the list but never affects `is_valid` (the validity criterion above does
not mention the file count, and each threshold contributes its warning
independently). -/
theorem claim_C7_valid_iff_thresholds (d : String) (max_lines max_chars : Nat) :
    ((validate_diff_size d max_lines max_chars).is_valid = false ↔
      ((pyLines d).length > max_lines ∨ d.length > max_chars)) ∧
    (validate_diff_size d max_lines max_chars).warnings.length =
      (if (pyLines d).length > max_lines then 1 else 0) +
      (if d.length > max_chars then 1 else 0) +
      (if (validate_diff_size d max_lines max_chars).file_count > 20 then 1 else 0) := by
  constructor
  · simp only [validate_diff_size]
    constructor
    · intro h
      by_cases h1 : (pyLines d).length > max_lines
      · exact Or.inl h1
      · right
        by_cases h2 : d.length > max_chars
        · exact h2
        · simp [h1, h2] at h
    · intro h
      rcases h with h | h <;> simp [h]
  · simp only [validate_diff_size]
    split_ifs <;> simp

/-- C8: the `change_type` of `analyze_diff_impact` is decided by the first
matching rule, in this exact order: documentation paths, test paths,
feature (additions more than twice deletions), removal (deletions more
than twice additions), breaking findings, refactor fallback; the embedded
cascade coincides with the specification-side decision procedure
`spec_change_type`. -/
theorem claim_C8_change_type_order (d : String) :
    (analyze_diff_impact d).change_type = spec_change_type d := by
  simp only [analyze_diff_impact, spec_change_type, List.isEmpty_iff,
    Bool.not_eq_true', ne_eq]
  rw [Nat.mul_comm (impact_deletions d) 2, Nat.mul_comm (impact_additions d) 2]
  rcases h : detect_breaking_changes d with _ | _ <;> simp [h]

/-- C10: the breaking-changes warning section of the prompt depends only on
the first 5 findings (so findings beyond the fifth never reach the prompt),
while `detect_breaking_changes` itself can return up to 10. -/
theorem claim_C10_breaking_section_first_five :
    (∀ bc : List (String × String),
      get_breaking_changes_section bc = get_breaking_changes_section (bc.take 5)) ∧
    (∀ d : String, (detect_breaking_changes d).length ≤ 10) := by
  constructor
  · intro bc
    cases bc with
    | nil => rfl
    | cons h t =>
      simp [get_breaking_changes_section, List.take_take]
  · intro d
    unfold detect_breaking_changes
    exact List.length_take_le 10 _

theorem mask_match_long {m : String} (h : 20 < m.length) :
    mask_match m = pyTake m 10 ++ "..." ++ takeLast m 5 := by
  unfold mask_match
  simp [h]

theorem mask_match_length_long {m : String} (h : 20 < m.length) :
    (mask_match m).length = 18 := by
  rw [mask_match_long h]
  rw [String.length_append, String.length_append]
  rw [pyTake_length, takeLast_length]
  have h3 : ("..." : String).length = 3 := by decide
  rw [h3]
  omega

theorem mask_match_not_contains {m : String} (h : 20 < m.length) :
    containsSub m (mask_match m) = false := by
  by_contra hc
  have ht : containsSub m (mask_match m) = true := by
    cases hq : containsSub m (mask_match m) with
    | true => rfl
    | false => exact absurd hq hc
  have := containsSub_length ht
  rw [mask_match_length_long h] at this
  omega

/-- C5: every finding of `detect_sensitive_data` carries the mask of the
substring the pattern matched: the first 10 characters, an ellipsis, and
the last 5 characters when the match is longer than 20 characters (and then
the mask cannot contain the full match), and the first 5 characters plus an
ellipsis otherwise.  `find` stands for the `re.finditer` enumerator; the
statement holds for every enumerator, hence for the concrete pattern set. -/
theorem claim_C5_masking (find : String → String → List String) (d : String)
    (x : String × String × Nat) (hx : x ∈ detect_sensitive_data find d) :
    ∃ m : String, x.2.1 = mask_match m ∧
      (20 < m.length →
        x.2.1 = pyTake m 10 ++ "..." ++ takeLast m 5 ∧
        containsSub m x.2.1 = false) ∧
      (m.length ≤ 20 → x.2.1 = pyTake m 5 ++ "...") := by
  unfold detect_sensitive_data at hx
  rw [List.mem_flatten] at hx
  obtain ⟨inner, hin, hxin⟩ := hx
  rw [List.mem_map] at hin
  obtain ⟨p, _, hp⟩ := hin
  subst hp
  by_cases hcond : (pyStartsWith p.2 "+" && !(pyStartsWith p.2 "+++")) = true
  · simp only [hcond, eq_self_iff_true, if_true] at hxin
    rw [List.mem_flatten] at hxin
    obtain ⟨inner2, hin2, hxin2⟩ := hxin
    rw [List.mem_map] at hin2
    obtain ⟨name, _, hname⟩ := hin2
    subst hname
    rw [List.mem_map] at hxin2
    obtain ⟨m, _, hm⟩ := hxin2
    refine ⟨m, ?_, ?_, ?_⟩
    · rw [← hm]
    · intro hlen
      constructor
      · rw [← hm]
        exact mask_match_long hlen
      · rw [← hm]
        exact mask_match_not_contains hlen
    · intro hlen
      rw [← hm]
      unfold mask_match
      have : ¬ m.length > 20 := by omega
      simp [this]
  · simp only [Bool.not_eq_true] at hcond
    simp only [hcond, Bool.false_eq_true, if_false] at hxin
    cases hxin

/-- C5 witness: a concrete enumerator returning one 25-character match on
an added line produces a finding whose mask obeys the long-match shape. -/
theorem claim_C5_masking_witness :
    (("AWS Access Key", "ABCDEFGHIJ...WXY-Z", 1) ∈
      detect_sensitive_data (fun _ _ => ["ABCDEFGHIJKLMNOPQRSTUVWXY-Z"]) "+k") ∧
    ∃ m : String, ("AWS Access Key", "ABCDEFGHIJ...WXY-Z", 1).2.1 = mask_match m ∧
      (20 < m.length →
        ("AWS Access Key", "ABCDEFGHIJ...WXY-Z", 1).2.1 =
          pyTake m 10 ++ "..." ++ takeLast m 5 ∧
        containsSub m ("AWS Access Key", "ABCDEFGHIJ...WXY-Z", 1).2.1 = false) ∧
      (m.length ≤ 20 →
        ("AWS Access Key", "ABCDEFGHIJ...WXY-Z", 1).2.1 = pyTake m 5 ++ "...") := by
  constructor
  · decide
  · exact claim_C5_masking (fun _ _ => ["ABCDEFGHIJKLMNOPQRSTUVWXY-Z"]) "+k"
      ("AWS Access Key", "ABCDEFGHIJ...WXY-Z", 1) (by decide)

/-- C6 counterexample: the fenced-block stripping pass is NOT idempotent.
On this input the first pass strips the outermost fence and exposes an
inner `"```a\n...\n```"` block, which a second pass strips again. -/
theorem claim_C6_counterexample :
    remove_backticks (remove_backticks "```\nX\n```a\nY\n```\nZ\n```") ≠
      remove_backticks "```\nX\n```a\nY\n```\nZ\n```" := by decide

/-- C6 (amended): `remove_backticks` strips at most one fenced wrapper per
application and is idempotent on every input whose result contains no
fence delimiter ```` ``` ```` (in particular whenever it made no change);
it is not idempotent on all strings, because stripping can expose a second
fenced block (see the counterexample). -/
theorem claim_C6_conditional_idempotence (s : String)
    (h : containsSub "```" (remove_backticks s) = false) :
    remove_backticks (remove_backticks s) = remove_backticks s :=
  remove_backticks_fix h

/-- C6 witness: on an ordinary wrapped response the stripped result has no
backtick left and a second pass is the identity. -/
theorem claim_C6_conditional_idempotence_witness :
    containsSub "```" (remove_backticks "```\nfeat: add x\n```") = false ∧
    remove_backticks (remove_backticks "```\nfeat: add x\n```") =
      remove_backticks "```\nfeat: add x\n```" :=
  ⟨by decide, claim_C6_conditional_idempotence "```\nfeat: add x\n```" (by decide)⟩

theorem parse_diff_files_eq (d : String) :
    parse_diff_files d =
      finalizeParse ((pyLines d).foldl parseFilesStep (none, 0, 0, [])) := by
  unfold parse_diff_files finalizeParse
  rfl

theorem header_not_plus {l : String} (h : isHeaderLineB l = true) :
    plusLineB l = false ∧ minusLineB l = false := by
  unfold isHeaderLineB pyStartsWith at h
  unfold plusLineB minusLineB pyStartsWith
  cases hd : l.data with
  | nil => rw [hd] at h; cases h
  | cons c r =>
    rw [hd] at h
    simp only [startsWithL, Bool.and_eq_true, beq_iff_eq] at h
    obtain ⟨hc, _⟩ := h
    subst hc
    simp [startsWithL]

theorem plus_not_minus {l : String} (h : plusLineB l = true) :
    minusLineB l = false := by
  unfold plusLineB pyStartsWith at h
  unfold minusLineB pyStartsWith
  cases hd : l.data with
  | nil => rw [hd] at h; simp [startsWithL] at h
  | cons c r =>
    rw [hd] at h
    simp only [startsWithL, Bool.and_eq_true, beq_iff_eq] at h
    obtain ⟨h1, _⟩ := h
    obtain ⟨hc, _⟩ := h1
    subst hc
    simp [startsWithL]

theorem headerOkB_extract {l : String} (h : headerOkB l = true) :
    (pySplitChar ' ' l).length ≥ 4 ∧ ∃ fp, extract_b_path l = some fp := by
  unfold headerOkB at h
  simp only [Bool.and_eq_true, decide_eq_true_eq, Option.isSome_iff_exists] at h
  exact ⟨h.1, h.2⟩

theorem parse_run_from_some (ls : List String)
    (hok : ∀ l ∈ ls, isHeaderLineB l = true → headerOkB l = true)
    (p : String) (a dl : Nat) (acc : List DiffFileRec) :
    ∃ (p' : String) (a' : Nat) (dl' : Nat) (acc' : List DiffFileRec),
      ls.foldl parseFilesStep (some p, a, dl, acc) = (some p', a', dl', acc') ∧
      (acc' ++ [DiffFileRec.mk p' a' dl']).length =
        acc.length + 1 + (ls.filter isHeaderLineB).length ∧
      sumAdds (acc' ++ [DiffFileRec.mk p' a' dl']) =
        sumAdds acc + a + (ls.filter plusLineB).length ∧
      sumDels (acc' ++ [DiffFileRec.mk p' a' dl']) =
        sumDels acc + dl + (ls.filter minusLineB).length := by
  induction ls generalizing p a dl acc with
  | nil =>
    refine ⟨p, a, dl, acc, rfl, ?_, ?_, ?_⟩ <;>
      simp [sumAdds, sumDels]
  | cons l ls ih =>
    have hstep : List.foldl parseFilesStep (some p, a, dl, acc) (l :: ls) =
        List.foldl parseFilesStep (parseFilesStep (some p, a, dl, acc) l) ls := rfl
    by_cases hH : isHeaderLineB l = true
    · have hok0 := hok l (by simp) hH
      obtain ⟨hlen, fp, hfp⟩ := headerOkB_extract hok0
      have hstep2 : parseFilesStep (some p, a, dl, acc) l =
          (some fp, 0, 0, acc ++ [DiffFileRec.mk p a dl]) := by
        unfold parseFilesStep
        unfold isHeaderLineB at hH
        simp [hH, hlen, hfp]
      obtain ⟨p', a', dl', acc', heq, hlen', hadds, hdels⟩ :=
        ih (fun x hx hh => hok x (by simp [hx]) hh) fp 0 0 (acc ++ [DiffFileRec.mk p a dl])
      obtain ⟨hpl, hml⟩ := header_not_plus hH
      refine ⟨p', a', dl', acc', by rw [hstep, hstep2]; exact heq, ?_, ?_, ?_⟩
      · rw [hlen']
        simp [List.filter_cons, hH]
        try omega
      · rw [hadds]
        simp [List.filter_cons, hpl, sumAdds]
        try omega
      · rw [hdels]
        simp [List.filter_cons, hml, sumDels]
        try omega
    · have hHf : isHeaderLineB l = false := by
        cases hq : isHeaderLineB l with
        | true => exact absurd hq hH
        | false => rfl
      by_cases hP : plusLineB l = true
      · have hM := plus_not_minus hP
        have hstep2 : parseFilesStep (some p, a, dl, acc) l =
            (some p, a + 1, dl, acc) := by
          unfold parseFilesStep
          unfold isHeaderLineB at hHf
          unfold plusLineB at hP
          rw [hHf]
          simp only [Bool.false_eq_true, if_false]
          rw [hP]
          simp
        obtain ⟨p', a', dl', acc', heq, hlen', hadds, hdels⟩ :=
          ih (fun x hx hh => hok x (by simp [hx]) hh) p (a + 1) dl acc
        refine ⟨p', a', dl', acc', by rw [hstep, hstep2]; exact heq, ?_, ?_, ?_⟩
        · rw [hlen']; simp [List.filter_cons, hHf]
        · rw [hadds]; simp [List.filter_cons, hP]; try omega
        · rw [hdels]; simp [List.filter_cons, hM]
      · have hPf : plusLineB l = false := by
          cases hq : plusLineB l with
          | true => exact absurd hq hP
          | false => rfl
        by_cases hM : minusLineB l = true
        · have hstep2 : parseFilesStep (some p, a, dl, acc) l =
              (some p, a, dl + 1, acc) := by
            unfold parseFilesStep
            unfold isHeaderLineB at hHf
            unfold plusLineB at hPf
            unfold minusLineB at hM
            rw [hHf]
            simp only [Bool.false_eq_true, if_false]
            rw [hPf]
            simp only [Bool.false_eq_true, if_false]
            rw [hM]
            simp
          obtain ⟨p', a', dl', acc', heq, hlen', hadds, hdels⟩ :=
            ih (fun x hx hh => hok x (by simp [hx]) hh) p a (dl + 1) acc
          refine ⟨p', a', dl', acc', by rw [hstep, hstep2]; exact heq, ?_, ?_, ?_⟩
          · rw [hlen']; simp [List.filter_cons, hHf]
          · rw [hadds]; simp [List.filter_cons, hPf]
          · rw [hdels]; simp [List.filter_cons, hM]; try omega
        · have hMf : minusLineB l = false := by
            cases hq : minusLineB l with
            | true => exact absurd hq hM
            | false => rfl
          have hstep2 : parseFilesStep (some p, a, dl, acc) l =
              (some p, a, dl, acc) := by
            unfold parseFilesStep
            unfold isHeaderLineB at hHf
            unfold plusLineB at hPf
            unfold minusLineB at hMf
            rw [hHf]
            simp only [Bool.false_eq_true, if_false]
            rw [hPf]
            simp only [Bool.false_eq_true, if_false]
            rw [hMf]
            simp
          obtain ⟨p', a', dl', acc', heq, hlen', hadds, hdels⟩ :=
            ih (fun x hx hh => hok x (by simp [hx]) hh) p a dl acc
          refine ⟨p', a', dl', acc', by rw [hstep, hstep2]; exact heq, ?_, ?_, ?_⟩
          · rw [hlen']; simp [List.filter_cons, hHf]
          · rw [hadds]; simp [List.filter_cons, hPf]
          · rw [hdels]; simp [List.filter_cons, hMf]

theorem parse_run_from_none (ls : List String)
    (hok : ∀ l ∈ ls, isHeaderLineB l = true → headerOkB l = true)
    (hpre : ∀ l ∈ ls.takeWhile (fun l => !isHeaderLineB l),
      plusLineB l = false ∧ minusLineB l = false) :
    (finalizeParse (ls.foldl parseFilesStep (none, 0, 0, []))).length =
      (ls.filter isHeaderLineB).length ∧
    sumAdds (finalizeParse (ls.foldl parseFilesStep (none, 0, 0, []))) =
      (ls.filter plusLineB).length ∧
    sumDels (finalizeParse (ls.foldl parseFilesStep (none, 0, 0, []))) =
      (ls.filter minusLineB).length := by
  induction ls with
  | nil => refine ⟨rfl, rfl, rfl⟩
  | cons l ls ih =>
    by_cases hH : isHeaderLineB l = true
    · have hok0 := hok l (by simp) hH
      obtain ⟨hlen, fp, hfp⟩ := headerOkB_extract hok0
      have hstep2 : parseFilesStep (none, 0, 0, []) l = (some fp, 0, 0, []) := by
        unfold parseFilesStep
        unfold isHeaderLineB at hH
        simp [hH, hlen, hfp]
      have hfold : List.foldl parseFilesStep (none, 0, 0, []) (l :: ls) =
          List.foldl parseFilesStep (some fp, 0, 0, []) ls := by
        show List.foldl parseFilesStep (parseFilesStep (none, 0, 0, []) l) ls = _
        rw [hstep2]
      obtain ⟨p', a', dl', acc', heq, hlen', hadds, hdels⟩ :=
        parse_run_from_some ls (fun x hx hh => hok x (by simp [hx]) hh) fp 0 0 []
      obtain ⟨hpl, hml⟩ := header_not_plus hH
      rw [hfold, heq]
      have hfin : finalizeParse (some p', a', dl', acc') =
          acc' ++ [DiffFileRec.mk p' a' dl'] := rfl
      rw [hfin]
      refine ⟨?_, ?_, ?_⟩
      · rw [hlen']; simp [List.filter_cons, hH]; try omega
      · rw [hadds]; simp [List.filter_cons, hpl, sumAdds]
      · rw [hdels]; simp [List.filter_cons, hml, sumDels]
    · have hHf : isHeaderLineB l = false := by
        cases hq : isHeaderLineB l with
        | true => exact absurd hq hH
        | false => rfl
      have hl0 : l ∈ (l :: ls).takeWhile (fun l => !isHeaderLineB l) := by
        simp [List.takeWhile_cons, hHf]
      obtain ⟨hpl, hml⟩ := hpre l hl0
      have hstep2 : parseFilesStep (none, 0, 0, []) l = (none, 0, 0, []) := by
        unfold parseFilesStep
        unfold isHeaderLineB at hHf
        unfold plusLineB at hpl
        unfold minusLineB at hml
        rw [hHf]
        simp only [Bool.false_eq_true, if_false]
        rw [hpl]
        simp only [Bool.false_eq_true, if_false]
        rw [hml]
        simp
      have hfold : List.foldl parseFilesStep (none, 0, 0, []) (l :: ls) =
          List.foldl parseFilesStep (none, 0, 0, []) ls := by
        show List.foldl parseFilesStep (parseFilesStep (none, 0, 0, []) l) ls = _
        rw [hstep2]
      have hpre' : ∀ x ∈ ls.takeWhile (fun l => !isHeaderLineB l),
          plusLineB x = false ∧ minusLineB x = false := by
        intro x hx
        refine hpre x ?_
        simp [List.takeWhile_cons, hHf, hx]
      obtain ⟨h1, h2, h3⟩ := ih (fun x hx hh => hok x (by simp [hx]) hh) hpre'
      rw [hfold]
      refine ⟨?_, ?_, ?_⟩
      · rw [h1]; simp [List.filter_cons, hHf]
      · rw [h2]; simp [List.filter_cons, hpl]
      · rw [h3]; simp [List.filter_cons, hml]

/-- C2 counterexample: the round-trip accounting fails on malformed input.
On `"diff --git"` (a header the parser rejects) `validate_diff_size` counts
one file but the parser produces no record; on `"+x"` (an added line before
any header) the records sum to 0 additions while the diff-wide count of
`+`-lines (excluding `+++`) is 1. -/
theorem claim_C2_counterexample :
    (validate_diff_size "diff --git" 500 50000).file_count = 1 ∧
    parse_diff_files "diff --git" = [] ∧
    sumAdds (parse_diff_files "+x") = 0 ∧
    ((pyLines "+x").filter plusLineB).length = 1 := by decide

/-- C2 (amended): for diffs in which every `diff --git` line is well formed
and no `+`/`-` content line precedes the first header, the file count of
`validate_diff_size` equals the number of parsed records, and the records'
additions (deletions) sum to the diff-wide count of lines starting with `+`
excluding `+++` (`-` excluding `---`). -/
theorem claim_C2_line_accounting (d : String) (ml mc : Nat)
    (h : goodDiffB d = true) :
    (validate_diff_size d ml mc).file_count = (parse_diff_files d).length ∧
    sumAdds (parse_diff_files d) = ((pyLines d).filter plusLineB).length ∧
    sumDels (parse_diff_files d) = ((pyLines d).filter minusLineB).length := by
  unfold goodDiffB at h
  simp only [Bool.and_eq_true, List.all_eq_true, Bool.or_eq_true,
    Bool.not_eq_true'] at h
  obtain ⟨hok, hpre⟩ := h
  have hok' : ∀ l ∈ pyLines d, isHeaderLineB l = true → headerOkB l = true := by
    intro l hl hh
    rcases hok l hl with h1 | h1
    · rw [hh] at h1; cases h1
    · exact h1
  have hpre' : ∀ l ∈ (pyLines d).takeWhile (fun l => !isHeaderLineB l),
      plusLineB l = false ∧ minusLineB l = false := by
    intro l hl
    have := hpre l hl
    simp only [Bool.and_eq_true, Bool.not_eq_true'] at this
    exact this
  obtain ⟨h1, h2, h3⟩ := parse_run_from_none (pyLines d) hok' hpre'
  rw [parse_diff_files_eq]
  refine ⟨?_, h2, h3⟩
  rw [h1]
  rfl

/-- C2 witness: a concrete well-formed diff satisfying the hypothesis, with
the accounting equalities evaluated. -/
theorem claim_C2_line_accounting_witness :
    goodDiffB "diff --git a/x b/x\n+a\n-b\n+c" = true ∧
    ((validate_diff_size "diff --git a/x b/x\n+a\n-b\n+c" 500 50000).file_count =
      (parse_diff_files "diff --git a/x b/x\n+a\n-b\n+c").length ∧
     sumAdds (parse_diff_files "diff --git a/x b/x\n+a\n-b\n+c") =
      ((pyLines "diff --git a/x b/x\n+a\n-b\n+c").filter plusLineB).length ∧
     sumDels (parse_diff_files "diff --git a/x b/x\n+a\n-b\n+c") =
      ((pyLines "diff --git a/x b/x\n+a\n-b\n+c").filter minusLineB).length) :=
  ⟨by decide, claim_C2_line_accounting "diff --git a/x b/x\n+a\n-b\n+c" 500 50000
    (by decide)⟩

theorem parse_fold_no_header (ls : List String)
    (h : ∀ l ∈ ls, isHeaderLineB l = false) (a dl : Nat) :
    ∃ a' dl', ls.foldl parseFilesStep (none, a, dl, []) = (none, a', dl', []) := by
  induction ls generalizing a dl with
  | nil => exact ⟨a, dl, rfl⟩
  | cons l ls ih =>
    have hH := h l (by simp)
    have hstep : ∃ a2 dl2,
        parseFilesStep (none, a, dl, []) l = (none, a2, dl2, []) := by
      unfold parseFilesStep
      unfold isHeaderLineB at hH
      rw [hH]
      simp only [Bool.false_eq_true, if_false]
      by_cases hp : (pyStartsWith l "+" && !(pyStartsWith l "+++")) = true
      · rw [hp]; exact ⟨a + 1, dl, by simp⟩
      · have hpf : (pyStartsWith l "+" && !(pyStartsWith l "+++")) = false := by
          cases hq : (pyStartsWith l "+" && !(pyStartsWith l "+++")) with
          | true => exact absurd hq hp
          | false => rfl
        rw [hpf]
        simp only [Bool.false_eq_true, if_false]
        by_cases hm : (pyStartsWith l "-" && !(pyStartsWith l "---")) = true
        · rw [hm]; exact ⟨a, dl + 1, by simp⟩
        · have hmf : (pyStartsWith l "-" && !(pyStartsWith l "---")) = false := by
            cases hq : (pyStartsWith l "-" && !(pyStartsWith l "---")) with
            | true => exact absurd hq hm
            | false => rfl
          rw [hmf]
          exact ⟨a, dl, by simp⟩
    obtain ⟨a2, dl2, hstep⟩ := hstep
    have : List.foldl parseFilesStep (none, a, dl, []) (l :: ls) =
        List.foldl parseFilesStep (none, a2, dl2, []) ls := by
      show List.foldl parseFilesStep (parseFilesStep (none, a, dl, []) l) ls = _
      rw [hstep]
    rw [this]
    exact ih (fun x hx => h x (by simp [hx])) a2 dl2

/-- C9 counterexample: on header-free text `detect_breaking_changes` is not
always empty: a removed `def` line with no `diff --git` header anywhere
still yields a finding (whose file is reported as `None`). -/
theorem claim_C9_counterexample :
    ((pyLines "-def f(a):").all (fun l => !isHeaderLineB l)) = true ∧
    detect_breaking_changes "-def f(a):" =
      [("Function signature changed", "None: def f(a):")] := by decide

/-- C9 (amended): on the empty string the parser, the file counter, the
scope detector and the breaking-change detector all return empty results;
on any text with no `diff --git` header line the parser returns no records,
`validate_diff_size` reports `file_count = 0` and `detect_scope_from_diff`
returns `[]` (but `detect_breaking_changes` can still report removed-line
findings, see the counterexample). -/
theorem claim_C9_empty_results :
    (parse_diff_files "" = [] ∧
     (validate_diff_size "" 500 50000).file_count = 0 ∧
     detect_scope_from_diff "" = [] ∧
     detect_breaking_changes "" = []) ∧
    (∀ d : String, ((pyLines d).all (fun l => !isHeaderLineB l)) = true →
      parse_diff_files d = [] ∧
      (∀ ml mc : Nat, (validate_diff_size d ml mc).file_count = 0) ∧
      detect_scope_from_diff d = []) := by
  constructor
  · exact ⟨by decide, by decide, by decide, by decide⟩
  · intro d hd
    simp only [List.all_eq_true, Bool.not_eq_true'] at hd
    refine ⟨?_, ?_, ?_⟩
    · rw [parse_diff_files_eq]
      obtain ⟨a', dl', hfold⟩ := parse_fold_no_header (pyLines d) hd 0 0
      rw [hfold]
      rfl
    · intro ml mc
      show (List.filter (fun l => pyStartsWith l "diff --git") (pyLines d)).length = 0
      rw [List.length_eq_zero]
      rw [List.filter_eq_nil_iff]
      intro l hl
      have := hd l hl
      unfold isHeaderLineB at this
      simp [this]
    · unfold detect_scope_from_diff
      have hcf : changed_files_b d = [] := by
        unfold changed_files_b
        rw [List.filterMap_eq_nil_iff]
        intro l hl
        have := hd l hl
        unfold isHeaderLineB at this
        simp [this]
      rw [hcf]
      rfl

/-- C9 witness: a concrete header-free text with the three empty results. -/
theorem claim_C9_empty_results_witness :
    ((pyLines "hello world\ncontext line").all (fun l => !isHeaderLineB l)) = true ∧
    (parse_diff_files "hello world\ncontext line" = [] ∧
     (∀ ml mc : Nat,
       (validate_diff_size "hello world\ncontext line" ml mc).file_count = 0) ∧
     detect_scope_from_diff "hello world\ncontext line" = []) :=
  ⟨by decide,
    (claim_C9_empty_results.2) "hello world\ncontext line" (by decide)⟩

theorem mem_insertByPriority {a x : CommitGroup} {l : List CommitGroup} :
    a ∈ insertByPriority x l ↔ a = x ∨ a ∈ l := by
  induction l with
  | nil => simp [insertByPriority]
  | cons h t ih =>
    unfold insertByPriority
    split
    · simp only [List.mem_cons, ih]
      tauto
    · simp only [List.mem_cons]
      try tauto

theorem mem_sortGroups {a : CommitGroup} {l : List CommitGroup} :
    a ∈ sortGroups l ↔ a ∈ l := by
  induction l with
  | nil => simp [sortGroups]
  | cons h t ih =>
    show a ∈ insertByPriority h (sortGroups t) ↔ _
    rw [mem_insertByPriority, ih]
    simp

theorem addToScopeMap_pred {C : DiffFileRec → Prop}
    {m : List (String × List DiffFileRec)} {k : String} {f : DiffFileRec}
    (hm : ∀ kfs ∈ m, ∀ x ∈ kfs.2, C x) (hf : C f) :
    ∀ kfs ∈ addToScopeMap m k f, ∀ x ∈ kfs.2, C x := by
  induction m with
  | nil =>
    intro kfs hkfs x hx
    simp only [addToScopeMap, List.mem_singleton] at hkfs
    subst hkfs
    simp only [List.mem_singleton] at hx
    subst hx
    exact hf
  | cons h t ih =>
    intro kfs hkfs x hx
    unfold addToScopeMap at hkfs
    by_cases hk : h.1 = k
    · simp only [hk, if_true] at hkfs
      rcases List.mem_cons.mp hkfs with h1 | h1
      · subst h1
        simp only at hx
        rcases List.mem_append.mp hx with h2 | h2
        · exact hm h (by simp) x h2
        · simp only [List.mem_singleton] at h2
          subst h2
          exact hf
      · exact hm kfs (by simp [h1]) x hx
    · simp only [hk, if_false] at hkfs
      rcases List.mem_cons.mp hkfs with h1 | h1
      · subst h1
        exact hm h (by simp) x hx
      · exact ih (fun kfs hkfs => hm kfs (by simp [hkfs])) kfs h1 x hx

theorem group_by_scope_pred {C : DiffFileRec → Prop} {files : List DiffFileRec}
    (hf : ∀ f ∈ files, C f) :
    ∀ kfs ∈ group_by_scope files, ∀ x ∈ kfs.2, C x := by
  unfold group_by_scope
  suffices h : ∀ (fs : List DiffFileRec) (m : List (String × List DiffFileRec)),
      (∀ kfs ∈ m, ∀ x ∈ kfs.2, C x) → (∀ f ∈ fs, C f) →
      ∀ kfs ∈ fs.foldl (fun m f => addToScopeMap m (scopeOfRecord f) f) m,
        ∀ x ∈ kfs.2, C x by
    exact h files [] (by simp) hf
  intro fs
  induction fs with
  | nil => intro m hm _ kfs hkfs x hx; exact hm kfs hkfs x hx
  | cons g gs ih =>
    intro m hm hfs kfs hkfs x hx
    have hstep := addToScopeMap_pred (k := scopeOfRecord g) hm (hfs g (by simp))
    exact ih _ hstep (fun f hf' => hfs f (by simp [hf'])) kfs hkfs x hx

/-- C3 counterexample: with six parsed files of which `test.md` matches
both the test and the documentation predicates, `analyze_commit_split`
places `test.md` in both the Tests and the Documentation groups — the
groups are not pairwise disjoint. -/
theorem claim_C3_counterexample :
    (analyze_commit_split
      "diff --git a/test.md b/test.md\ndiff --git a/a.py b/a.py\ndiff --git a/b.py b/b.py\ndiff --git a/c.py b/c.py\ndiff --git a/d.py b/d.py\ndiff --git a/e.py b/e.py").map
      (fun g => (g.name, g.files)) =
      [("Root Changes", ["a.py", "b.py", "c.py", "d.py", "e.py"]),
       ("Tests", ["test.md"]),
       ("Documentation", ["test.md"])] := by decide

/-- C3 (amended): the category groups (Tests, Documentation, Configuration)
can overlap when one file matches several predicates, but every
scope-based group (priority 1) is disjoint from all of them: none of its
files satisfies the test, documentation or configuration predicate. -/
theorem claim_C3_scope_groups_disjoint (d : String) (g : CommitGroup)
    (hg : g ∈ analyze_commit_split d) (hp : g.priority = 1)
    (p : String) (hmem : p ∈ g.files) :
    is_test_file p = false ∧ is_doc_file p = false ∧ is_config_file p = false := by
  unfold analyze_commit_split at hg
  by_cases hle : (parse_diff_files d).length ≤ 5
  · simp only [hle, if_pos] at hg
    cases hg
  · simp only [hle, if_neg, if_false] at hg
    rw [mem_sortGroups] at hg
    unfold rawCommitGroups at hg
    set files_data := parse_diff_files d with hfd
    set test_files := files_data.filter (fun f => is_test_file f.path) with htf
    set doc_files := files_data.filter (fun f => is_doc_file f.path) with hdf
    set config_files := files_data.filter (fun f => is_config_file f.path) with hcf
    simp only [List.mem_append] at hg
    have hg4 : g ∈ (if (files_data.filter (fun f =>
        decide (f ∉ test_files) && decide (f ∉ doc_files) &&
        decide (f ∉ config_files))).isEmpty then ([] : List CommitGroup)
      else (group_by_scope (files_data.filter (fun f =>
          decide (f ∉ test_files) && decide (f ∉ doc_files) &&
          decide (f ∉ config_files)))).filterMap (fun q =>
        if q.2.length ≥ 2 then
          some { name := pyTitle q.1 ++ " Changes",
                 files := q.2.map (fun f => f.path),
                 reason := "Related " ++ q.1 ++ " functionality changes",
                 scope := q.1, priority := 1 }
        else none)) := by
      rcases hg with ((h1 | h2) | h3) | h4
      · exfalso
        by_cases he : test_files.isEmpty
        · rw [if_pos he] at h1
          cases h1
        · rw [if_neg he] at h1
          rw [List.mem_singleton] at h1
          rw [h1] at hp
          cases hp
      · exfalso
        by_cases he : doc_files.isEmpty
        · rw [if_pos he] at h2
          cases h2
        · rw [if_neg he] at h2
          rw [List.mem_singleton] at h2
          rw [h2] at hp
          cases hp
      · exfalso
        by_cases he : config_files.isEmpty
        · rw [if_pos he] at h3
          cases h3
        · rw [if_neg he] at h3
          rw [List.mem_singleton] at h3
          rw [h3] at hp
          cases hp
      · exact h4
    by_cases he : (files_data.filter (fun f =>
        decide (f ∉ test_files) && decide (f ∉ doc_files) &&
        decide (f ∉ config_files))).isEmpty
    · rw [if_pos he] at hg4
      cases hg4
    · rw [if_neg he] at hg4
      rw [List.mem_filterMap] at hg4
      obtain ⟨q, hq, hqg⟩ := hg4
      by_cases hlen : q.2.length ≥ 2
      · rw [if_pos hlen] at hqg
        have hfiles : g.files = q.2.map (fun f => f.path) := by
          cases hqg
          rfl
        rw [hfiles] at hmem
        rw [List.mem_map] at hmem
        obtain ⟨f, hf, hfp⟩ := hmem
        have hsub : ∀ kfs ∈ group_by_scope (files_data.filter (fun f =>
            decide (f ∉ test_files) && decide (f ∉ doc_files) &&
            decide (f ∉ config_files))), ∀ x ∈ kfs.2,
            x ∈ files_data ∧ x ∉ test_files ∧ x ∉ doc_files ∧ x ∉ config_files := by
          refine group_by_scope_pred ?_
          intro f' hf'
          rw [List.mem_filter] at hf'
          obtain ⟨hin, hcond⟩ := hf'
          simp only [Bool.and_eq_true, decide_eq_true_eq] at hcond
          exact ⟨hin, hcond.1.1, hcond.1.2, hcond.2⟩
        obtain ⟨hin, hnt, hnd, hnc⟩ := hsub q hq f hf
        subst hfp
        refine ⟨?_, ?_, ?_⟩
        · cases hq1 : is_test_file f.path with
          | false => rfl
          | true =>
            exfalso
            exact hnt (by rw [htf]; exact List.mem_filter.mpr ⟨hin, hq1⟩)
        · cases hq1 : is_doc_file f.path with
          | false => rfl
          | true =>
            exfalso
            exact hnd (by rw [hdf]; exact List.mem_filter.mpr ⟨hin, hq1⟩)
        · cases hq1 : is_config_file f.path with
          | false => rfl
          | true =>
            exfalso
            exact hnc (by rw [hcf]; exact List.mem_filter.mpr ⟨hin, hq1⟩)
      · rw [if_neg hlen] at hqg
        cases hqg

/-- C3 witness: the scope-based `Root Changes` group of the six-file diff
contains `a.py`, which matches none of the category predicates. -/
theorem claim_C3_scope_groups_disjoint_witness :
    (CommitGroup.mk "Root Changes" ["a.py", "b.py", "c.py", "d.py", "e.py"]
        "Related root functionality changes" "root" 1 ∈
      analyze_commit_split
        "diff --git a/test.md b/test.md\ndiff --git a/a.py b/a.py\ndiff --git a/b.py b/b.py\ndiff --git a/c.py b/c.py\ndiff --git a/d.py b/d.py\ndiff --git a/e.py b/e.py") ∧
    ("a.py" ∈ (CommitGroup.mk "Root Changes"
        ["a.py", "b.py", "c.py", "d.py", "e.py"]
        "Related root functionality changes" "root" 1).files) ∧
    (is_test_file "a.py" = false ∧ is_doc_file "a.py" = false ∧
      is_config_file "a.py" = false) :=
  ⟨by decide, by decide,
    claim_C3_scope_groups_disjoint
      "diff --git a/test.md b/test.md\ndiff --git a/a.py b/a.py\ndiff --git a/b.py b/b.py\ndiff --git a/c.py b/c.py\ndiff --git a/d.py b/d.py\ndiff --git a/e.py b/e.py"
      (CommitGroup.mk "Root Changes" ["a.py", "b.py", "c.py", "d.py", "e.py"]
        "Related root functionality changes" "root" 1)
      (by decide) rfl "a.py" (by decide)⟩

theorem context_section_congr (cfg : TemplateCfg) (ctx : RepoContext)
    (rcfg : Option RepoConfig) (privacy : Bool) (fs fs' : FileSystem)
    (hres : fs.resolve (repoPathOf rcfg) = fs'.resolve (repoPathOf rcfg))
    (hex : fs.pathExists (repoPathOf rcfg) = fs'.pathExists (repoPathOf rcfg))
    (hcf : ∀ cf ∈ contextFilesOf rcfg,
      fs.pathExists (pathJoin (repoPathOf rcfg) cf) =
        fs'.pathExists (pathJoin (repoPathOf rcfg) cf) ∧
      fs.isFile (pathJoin (repoPathOf rcfg) cf) =
        fs'.isFile (pathJoin (repoPathOf rcfg) cf) ∧
      fs.readFile (pathJoin (repoPathOf rcfg) cf) =
        fs'.readFile (pathJoin (repoPathOf rcfg) cf)) :
    get_repository_context_section fs cfg ctx rcfg privacy =
      get_repository_context_section fs' cfg ctx rcfg privacy := by
  unfold get_repository_context_section
  dsimp only
  rw [hres]
  cases rcfg with
  | none => rfl
  | some rc =>
    simp only [repoPathOf] at hex hcf ⊢
    rw [hex]
    have hmap : rc.context_files.map
        (context_file_entry fs cfg.max_context_file_size
          (match rc.absolute_path with
           | some p => if p = "" then "." else p
           | none => ".")) =
      rc.context_files.map
        (context_file_entry fs' cfg.max_context_file_size
          (match rc.absolute_path with
           | some p => if p = "" then "." else p
           | none => ".")) := by
      refine List.map_congr_left ?_
      intro cf hcfmem
      obtain ⟨h1, h2, h3⟩ := hcf cf (by simpa [contextFilesOf] using hcfmem)
      unfold context_file_entry
      dsimp only
      rw [h1, h2, h3]
    rw [hmap]

/-- C4: `build_prompt` is deterministic — its output is a function of the
diff text, repository context, repository configuration, additional
context, template configuration, privacy flag, and the filesystem values it
consults (the resolved repository path, its existence, and the existence,
is-file status and contents of each configured context file).  Two calls
agreeing on all of these, in particular two calls on identical arguments,
return the identical string. -/
theorem claim_C4_build_prompt_deterministic (diff : String) (ctx : RepoContext)
    (rcfg : Option RepoConfig) (additional : Option String) (cfg : TemplateCfg)
    (privacy : Bool) (fs fs' : FileSystem)
    (hres : fs.resolve (repoPathOf rcfg) = fs'.resolve (repoPathOf rcfg))
    (hex : fs.pathExists (repoPathOf rcfg) = fs'.pathExists (repoPathOf rcfg))
    (hcf : ∀ cf ∈ contextFilesOf rcfg,
      fs.pathExists (pathJoin (repoPathOf rcfg) cf) =
        fs'.pathExists (pathJoin (repoPathOf rcfg) cf) ∧
      fs.isFile (pathJoin (repoPathOf rcfg) cf) =
        fs'.isFile (pathJoin (repoPathOf rcfg) cf) ∧
      fs.readFile (pathJoin (repoPathOf rcfg) cf) =
        fs'.readFile (pathJoin (repoPathOf rcfg) cf)) :
    build_prompt diff ctx rcfg additional cfg fs privacy =
      build_prompt diff ctx rcfg additional cfg fs' privacy := by
  unfold build_prompt
  rw [context_section_congr cfg ctx rcfg privacy fs fs' hres hex hcf]

/-- C4 witness: two calls with the same concrete filesystem (hence
trivially agreeing on every consulted value) return the same string. -/
theorem claim_C4_build_prompt_deterministic_witness :
    build_prompt "diff --git a/x b/x\n+1" cxCtx none none cxCfg cxFS false =
      build_prompt "diff --git a/x b/x\n+1" cxCtx none none cxCfg cxFS false :=
  claim_C4_build_prompt_deterministic "diff --git a/x b/x\n+1" cxCtx none none
    cxCfg false cxFS cxFS rfl rfl (fun _ _ => ⟨rfl, rfl, rfl⟩)

/-! ## C1: line-level structure of the privacy transform -/

theorem digitChar_ne_newline : ∀ m : Nat, Nat.digitChar m ≠ '\n'
  | 0 => by decide
  | 1 => by decide
  | 2 => by decide
  | 3 => by decide
  | 4 => by decide
  | 5 => by decide
  | 6 => by decide
  | 7 => by decide
  | 8 => by decide
  | 9 => by decide
  | 10 => by decide
  | 11 => by decide
  | 12 => by decide
  | 13 => by decide
  | 14 => by decide
  | 15 => by decide
  | (n + 16) => by
    unfold Nat.digitChar
    repeat rw [if_neg (by omega)]
    decide

theorem mem_toDigitsCore {b : Nat} : ∀ {f n : Nat} {ds : List Char} {c : Char},
    c ∈ Nat.toDigitsCore b f n ds → c ∈ ds ∨ ∃ m, c = Nat.digitChar m := by
  intro f
  induction f with
  | zero => intro n ds c h; exact Or.inl h
  | succ f ih =>
    intro n ds c h
    rw [show Nat.toDigitsCore b (f + 1) n ds =
        (if n / b = 0 then Nat.digitChar (n % b) :: ds
         else Nat.toDigitsCore b f (n / b) (Nat.digitChar (n % b) :: ds))
      from rfl] at h
    split at h
    · rcases List.mem_cons.mp h with h1 | h1
      · exact Or.inr ⟨n % b, h1⟩
      · exact Or.inl h1
    · rcases ih h with h1 | h1
      · rcases List.mem_cons.mp h1 with h2 | h2
        · exact Or.inr ⟨n % b, h2⟩
        · exact Or.inl h2
      · exact Or.inr h1

theorem newline_not_mem_toString (n : Nat) : '\n' ∉ (toString n).data := by
  intro h
  have h2 : '\n' ∈ Nat.toDigits 10 n := h
  unfold Nat.toDigits at h2
  rcases mem_toDigitsCore h2 with h3 | ⟨m, h3⟩
  · cases h3
  · exact digitChar_ne_newline m h3.symm

theorem newline_not_mem_anonLabel (paths : List String) (p : String) :
    '\n' ∉ (anonLabel paths p).data := by
  unfold anonLabel
  intro h
  have : ("file" ++ toString (paths.indexOf p + 1)).data =
      "file".data ++ (toString (paths.indexOf p + 1)).data := rfl
  rw [this] at h
  rcases List.mem_append.mp h with h1 | h1
  · simp at h1
  · exact newline_not_mem_toString _ h1

theorem mem_replaceAllFuel {fuel : Nat} {pat rep : List Char} :
    ∀ {l : List Char} {c : Char}, c ∈ replaceAllFuel fuel pat rep l →
      c ∈ l ∨ c ∈ rep := by
  induction fuel with
  | zero => intro l c h; exact Or.inl h
  | succ fuel ih =>
    intro l c h
    cases l with
    | nil =>
      unfold replaceAllFuel at h
      cases h
    | cons x r =>
      rw [show replaceAllFuel (fuel + 1) pat rep (x :: r) =
          (if (startsWithL pat (x :: r) && !pat.isEmpty) = true then
            rep ++ replaceAllFuel fuel pat rep ((x :: r).drop pat.length)
          else x :: replaceAllFuel fuel pat rep r) from rfl] at h
      split at h
      · rcases List.mem_append.mp h with h1 | h1
        · exact Or.inr h1
        · rcases ih h1 with h2 | h2
          · exact Or.inl (List.drop_subset _ _ h2)
          · exact Or.inr h2
      · rcases List.mem_cons.mp h with h1 | h1
        · exact Or.inl (by simp [h1])
        · rcases ih h1 with h2 | h2
          · exact Or.inl (by simp [h2])
          · exact Or.inr h2

theorem newline_not_mem_anonymizeLine {paths : List String} {l : String}
    (hl : '\n' ∉ l.data) : '\n' ∉ (anonymizeLine paths l).data := by
  unfold anonymizeLine
  split
  · suffices h : ∀ (ps : List String) (s : String), '\n' ∉ s.data →
        '\n' ∉ (ps.foldl (fun acc p => replaceAll acc p (anonLabel paths p)) s).data by
      exact h paths l hl
    intro ps
    induction ps with
    | nil => intro s hs; exact hs
    | cons p pr ih =>
      intro s hs
      refine ih _ ?_
      intro hmem
      unfold replaceAll at hmem
      rcases mem_replaceAllFuel hmem with h1 | h1
      · exact hs h1
      · exact newline_not_mem_anonLabel paths p h1
  · exact hl

theorem splitCharL_ne_nil (sep : Char) (l : List Char) :
    splitCharL sep l ≠ [] := by
  cases l with
  | nil => simp [splitCharL]
  | cons c r =>
    show (if (c == sep) = true then [] :: splitCharL sep r
      else match splitCharL sep r with
        | h :: t => (c :: h) :: t
        | [] => [[c]]) ≠ []
    split
    · simp
    · split <;> simp

theorem splitCharL_no_sep (sep : Char) (l : List Char) :
    ∀ p ∈ splitCharL sep l, sep ∉ p := by
  induction l with
  | nil =>
    intro p hp
    simp only [splitCharL, List.mem_singleton] at hp
    subst hp
    simp
  | cons c r ih =>
    intro p hp
    unfold splitCharL at hp
    by_cases hc : (c == sep) = true
    · rw [if_pos hc] at hp
      rcases List.mem_cons.mp hp with h1 | h1
      · subst h1; simp
      · exact ih p h1
    · rw [if_neg hc] at hp
      cases hr : splitCharL sep r with
      | nil => exact absurd hr (splitCharL_ne_nil sep r)
      | cons h t =>
        rw [hr] at hp
        rcases List.mem_cons.mp hp with h1 | h1
        · subst h1
          intro hmem
          rcases List.mem_cons.mp hmem with h2 | h2
          · rw [h2] at hc; simp at hc
          · exact ih h (by rw [hr]; simp) h2
        · exact ih p (by rw [hr]; simp [h1])

theorem splitCharL_append_sep (sep : Char) (x t : List Char) (hx : sep ∉ x) :
    splitCharL sep (x ++ sep :: t) = x :: splitCharL sep t := by
  induction x with
  | nil =>
    show (if (sep == sep) = true then [] :: splitCharL sep t
      else match splitCharL sep t with
        | h :: t2 => (sep :: h) :: t2
        | [] => [[sep]]) = [] :: splitCharL sep t
    rw [if_pos (by simp)]
  | cons c xs ih =>
    have hc : ¬(c == sep) = true := by
      intro h
      exact hx (by simp at h; simp [h])
    have hxs : sep ∉ xs := fun h => hx (by simp [h])
    show (if (c == sep) = true then [] :: splitCharL sep (xs ++ sep :: t)
      else match splitCharL sep (xs ++ sep :: t) with
        | h :: t2 => (c :: h) :: t2
        | [] => [[c]]) = (c :: xs) :: splitCharL sep t
    rw [if_neg hc, ih hxs]

theorem splitCharL_of_no_sep (sep : Char) (x : List Char) (hx : sep ∉ x) :
    splitCharL sep x = [x] := by
  induction x with
  | nil => rfl
  | cons c xs ih =>
    have hc : ¬(c == sep) = true := by
      intro h
      exact hx (by simp at h; simp [h])
    have hxs : sep ∉ xs := fun h => hx (by simp [h])
    show (if (c == sep) = true then [] :: splitCharL sep xs
      else match splitCharL sep xs with
        | h :: t2 => (c :: h) :: t2
        | [] => [[c]]) = [c :: xs]
    rw [if_neg hc, ih hxs]

theorem string_mk_data (s : String) : String.mk s.data = s := rfl

theorem pyLines_pyJoin (ls : List String) (hne : ls ≠ [])
    (h : ∀ s ∈ ls, '\n' ∉ s.data) : pyLines (pyJoin "\n" ls) = ls := by
  induction ls with
  | nil => exact absurd rfl hne
  | cons x r ih =>
    cases r with
    | nil =>
      show pyLines x = [x]
      unfold pyLines pySplitChar
      rw [splitCharL_of_no_sep '\n' x.data (h x (by simp))]
      rfl
    | cons y rr =>
      have hdata : (pyJoin "\n" (x :: y :: rr)).data =
          x.data ++ '\n' :: (pyJoin "\n" (y :: rr)).data := by
        show (x ++ "\n" ++ pyJoin "\n" (y :: rr)).data = _
        have e1 : (x ++ "\n" ++ pyJoin "\n" (y :: rr)).data =
            (x.data ++ ['\n']) ++ (pyJoin "\n" (y :: rr)).data := rfl
        rw [e1, List.append_assoc]
        rfl
      show pySplitChar '\n' (pyJoin "\n" (x :: y :: rr)) = x :: y :: rr
      unfold pySplitChar
      rw [hdata, splitCharL_append_sep '\n' x.data _ (h x (by simp))]
      have ihr := ih (by simp) (fun s hs => h s (by simp [hs]))
      show String.mk x.data ::
          (splitCharL '\n' (pyJoin "\n" (y :: rr)).data).map (fun l => String.mk l) =
        x :: y :: rr
      rw [string_mk_data]
      have : (splitCharL '\n' (pyJoin "\n" (y :: rr)).data).map
          (fun l => String.mk l) = pyLines (pyJoin "\n" (y :: rr)) := rfl
      rw [this, ihr]

theorem pyLines_ne_nil (s : String) : pyLines s ≠ [] := by
  unfold pyLines pySplitChar
  intro h
  have := splitCharL_ne_nil '\n' s.data
  rw [List.map_eq_nil_iff] at h
  exact this h

theorem pyLines_no_newline (s : String) : ∀ l ∈ pyLines s, '\n' ∉ l.data := by
  intro l hl
  unfold pyLines pySplitChar at hl
  rw [List.mem_map] at hl
  obtain ⟨p, hp, hpl⟩ := hl
  subst hpl
  exact splitCharL_no_sep '\n' s.data p hp

theorem pyLines_anonymize (d : String) :
    pyLines (anonymize_diff d) =
      (pyLines d).map (anonymizeLine (anonPaths d)) := by
  unfold anonymize_diff
  refine pyLines_pyJoin _ ?_ ?_
  · intro h
    rw [List.map_eq_nil_iff] at h
    exact pyLines_ne_nil d h
  · intro s hs
    rw [List.mem_map] at hs
    obtain ⟨l, hl, hls⟩ := hs
    subst hls
    exact newline_not_mem_anonymizeLine (pyLines_no_newline d l hl)

theorem distinctFirst_not_mem_seen :
    ∀ (l : List String) (seen : List String) (x : String),
      x ∈ distinctFirst seen l → x ∉ seen := by
  intro l
  induction l with
  | nil => intro seen x h; cases h
  | cons y r ih =>
    intro seen x h
    unfold distinctFirst at h
    split at h
    · exact ih seen x h
    · rcases List.mem_cons.mp h with h1 | h1
      · subst h1
        intro hx
        next hcon =>
          exact hcon (by simpa using hx)
      · intro hx
        exact ih (y :: seen) x h1 (by simp [hx])

theorem distinctFirst_nodup :
    ∀ (l : List String) (seen : List String), (distinctFirst seen l).Nodup := by
  intro l
  induction l with
  | nil => intro seen; exact List.nodup_nil
  | cons y r ih =>
    intro seen
    unfold distinctFirst
    split
    · exact ih seen
    · refine List.nodup_cons.mpr ⟨?_, ih (y :: seen)⟩
      intro hmem
      exact distinctFirst_not_mem_seen r (y :: seen) y hmem (by simp)

theorem anonPaths_nodup (d : String) : (anonPaths d).Nodup :=
  distinctFirst_nodup _ []

/-- C1 counterexample: the claim's universal no-substring guarantee fails.
For the one-line diff below the parsed changed-file path is `"a"`, and in
privacy mode that path still occurs as a substring of the built prompt
(e.g. inside its fixed instruction text), even though the diff itself was
anonymized. -/
theorem claim_C1_counterexample :
    "a" ∈ changed_files_b "diff --git a/a b/a\n+x" ∧
    containsSub "a"
      (build_prompt "diff --git a/a b/a\n+x" cxCtx none none cxCfg cxFS true) =
      true := by
  constructor
  · decide
  · decide

/-- C1 (amended, privacy transform modelled from the spec): in the
anonymized diff embedded by `build_prompt` with `privacy_mode=true`, the
line count is preserved, every non-header line is preserved verbatim at
its position, and the distinct header paths (in order of first appearance)
receive the sequential labels `file1`, `file2`, ... — the same path always
mapping to the same label.  The original claim's blanket guarantee that no
original path occurs as a substring of the whole prompt is dropped: it
fails when a path also occurs in non-path content or in the prompt's fixed
text (see the counterexample). -/
theorem claim_C1_privacy_anonymization (d : String) :
    ((pyLines (anonymize_diff d)).length = (pyLines d).length) ∧
    (∀ (i : Nat) (h1 : i < (pyLines d).length)
        (h2 : i < (pyLines (anonymize_diff d)).length),
      isDiffHeaderLine ((pyLines d).get ⟨i, h1⟩) = false →
        (pyLines (anonymize_diff d)).get ⟨i, h2⟩ = (pyLines d).get ⟨i, h1⟩) ∧
    ((anonPaths d).Nodup ∧
      ∀ (i : Nat) (h : i < (anonPaths d).length),
        anonLabel (anonPaths d) ((anonPaths d).get ⟨i, h⟩) =
          "file" ++ toString (i + 1)) := by
  refine ⟨?_, ?_, anonPaths_nodup d, ?_⟩
  · rw [pyLines_anonymize]
    exact List.length_map _ _
  · intro i h1 h2 hnh
    have hmap := pyLines_anonymize d
    have hget : (pyLines (anonymize_diff d)).get ⟨i, h2⟩ =
        anonymizeLine (anonPaths d) ((pyLines d).get ⟨i, h1⟩) := by
      have := List.get_of_eq hmap ⟨i, h2⟩
      rw [this]
      exact List.getElem_map _
    rw [hget]
    unfold anonymizeLine
    rw [if_neg (by rw [hnh]; simp)]
  · intro i h
    unfold anonLabel
    rw [List.get_eq_getElem]
    rw [List.indexOf_getElem (anonPaths_nodup d) i h]

/-- C1 witness: on a two-file diff whose second file repeats, the first
distinct path gets label `file1` and the second `file2`; the non-header
line `+x` is preserved at its position. -/
theorem claim_C1_privacy_anonymization_witness :
    ((pyLines (anonymize_diff "diff --git a/p.py b/p.py\n+x\ndiff --git a/q.py b/q.py")).length =
      (pyLines "diff --git a/p.py b/p.py\n+x\ndiff --git a/q.py b/q.py").length) ∧
    ((pyLines (anonymize_diff "diff --git a/p.py b/p.py\n+x\ndiff --git a/q.py b/q.py")).get
        ⟨1, by decide⟩ =
      (pyLines "diff --git a/p.py b/p.py\n+x\ndiff --git a/q.py b/q.py").get
        ⟨1, by decide⟩) ∧
    (anonLabel (anonPaths "diff --git a/p.py b/p.py\n+x\ndiff --git a/q.py b/q.py")
        ((anonPaths "diff --git a/p.py b/p.py\n+x\ndiff --git a/q.py b/q.py").get
          ⟨0, by decide⟩) = "file" ++ toString (0 + 1) ∧
     anonLabel (anonPaths "diff --git a/p.py b/p.py\n+x\ndiff --git a/q.py b/q.py")
        ((anonPaths "diff --git a/p.py b/p.py\n+x\ndiff --git a/q.py b/q.py").get
          ⟨1, by decide⟩) = "file" ++ toString (1 + 1)) :=
  ⟨(claim_C1_privacy_anonymization
      "diff --git a/p.py b/p.py\n+x\ndiff --git a/q.py b/q.py").1,
   (claim_C1_privacy_anonymization
      "diff --git a/p.py b/p.py\n+x\ndiff --git a/q.py b/q.py").2.1
      1 (by decide) (by decide) (by decide),
   (claim_C1_privacy_anonymization
      "diff --git a/p.py b/p.py\n+x\ndiff --git a/q.py b/q.py").2.2.2
      0 (by decide),
   (claim_C1_privacy_anonymization
      "diff --git a/p.py b/p.py\n+x\ndiff --git a/q.py b/q.py").2.2.2
      1 (by decide)⟩
